import Mathlib

/-!
Shallow embedding of the HKMJ Hong Kong Mahjong engine
(`src/js/tile.js`, `src/js/wall.js`, `src/unnamed/part_002` = hand.js,
the scoring/game code in `src/js/game.js`, and the constants block of
`src/js/ui.js` = constants.js), together with proofs settling the
frozen claims about it.

Modelling conventions:
* JS numbers are `Nat`/`Int` (all quantities involved are integers).
* JS string keys such as `"wan_3"` (from `Tile.key = suit + "_" + value`)
  are modelled by the structure `Key` holding the suit and the value.
* JS `null`/`undefined` results are `Option`; code paths on which the JS
  would throw (property access on `undefined`, iterating `undefined`)
  are modelled by `Option`-returning functions yielding `none`.
* `Math.random` driven choices (wall shuffling, AI decisions) are
  modelled by parameters/oracle fields: the shuffled tile list is an
  explicit argument, and the AI decision functions of `ai.js`
  (`decideClaim`, `chooseDiscard`, `chooseChowCombo`), whose outputs are
  consumed opaquely by the state machine, are oracle fields of `Game`.
* Unbounded JS loops/recursions are modelled with an explicit fuel
  argument that is initialised generously by the wrappers; running out
  of fuel yields the `none`/`false` default.  In every reachable state
  the fuel suffices (each iteration fixes a tile or consumes a wall
  tile), and no theorem below depends on the out-of-fuel branch.
-/

set_option maxRecDepth 10000

namespace HKMJ

/-! ## Tile model (`src/js/tile.js`, constants from `src/js/ui.js`) -/

/-- `SUITS` of constants.js: wan/tung/sok are the number suits. -/
inductive Suit where
  | wan | tung | sok | wind | dragon | flower | season
deriving DecidableEq, Repr

/-- A tile: suit, value and the unique physical id (0..143). -/
structure Tile where
  suit : Suit
  value : Nat
  id : Nat
deriving DecidableEq, Repr

/-- Grouping key `Tile.key` (`suit_value` string in JS). -/
structure Key where
  suit : Suit
  value : Nat
deriving DecidableEq, Repr

def Tile.key (t : Tile) : Key := ⟨t.suit, t.value⟩

def Tile.isNumberSuit (t : Tile) : Bool :=
  t.suit == Suit.wan || t.suit == Suit.tung || t.suit == Suit.sok

def Tile.isWind (t : Tile) : Bool := t.suit == Suit.wind

def Tile.isDragon (t : Tile) : Bool := t.suit == Suit.dragon

def Tile.isHonour (t : Tile) : Bool := t.isWind || t.isDragon

def Tile.isFlower (t : Tile) : Bool := t.suit == Suit.flower

def Tile.isSeason (t : Tile) : Bool := t.suit == Suit.season

def Tile.isBonus (t : Tile) : Bool := t.isFlower || t.isSeason

def Tile.isTerminal (t : Tile) : Bool :=
  t.isNumberSuit && (t.value == 1 || t.value == 9)

/-- `suitOrder` of `Tile.sortKey`.  JS leaves flower/season undefined
(`NaN` sort keys, unspecified order); we extend the table with 5/6.
Bonus tiles occur in a hand only transiently and no claim depends on
their position. -/
def suitOrderNum : Suit → Nat
  | Suit.wan => 0 | Suit.tung => 1 | Suit.sok => 2
  | Suit.wind => 3 | Suit.dragon => 4 | Suit.flower => 5 | Suit.season => 6

def Tile.sortKey (t : Tile) : Nat := suitOrderNum t.suit * 100 + t.value

/-- Stable insertion of a tile into a list ordered by `sortKey`
(models the result of `Array.prototype.sort(Tile.compare)` on an
already sorted list plus one element). -/
def insertTileSorted (t : Tile) : List Tile → List Tile
  | [] => [t]
  | x :: xs =>
    if x.sortKey ≤ t.sortKey then x :: insertTileSorted t xs
    else t :: x :: xs

/-- Stable sort by `sortKey` (models `this.concealed.sort(Tile.compare)`). -/
def sortTiles : List Tile → List Tile
  | [] => []
  | x :: xs => insertTileSorted x (sortTiles xs)

/-- `createAllTiles()` of tile.js: 144 tiles (the header comment in the
source says 136 but the function also appends 4 flowers + 4 seasons). -/
def createAllTiles : List Tile :=
  let numberSuits := [Suit.wan, Suit.tung, Suit.sok]
  let numbered := numberSuits.flatMap (fun s =>
    (List.range 9).flatMap (fun v => (List.range 4).map (fun c =>
      ({ suit := s, value := v + 1,
         id := (numberSuits.indexOf s) * 36 + v * 4 + c } : Tile))))
  let winds := (List.range 4).flatMap (fun v => (List.range 4).map (fun c =>
    ({ suit := Suit.wind, value := v + 1, id := 108 + v * 4 + c } : Tile)))
  let dragons := (List.range 3).flatMap (fun v => (List.range 4).map (fun c =>
    ({ suit := Suit.dragon, value := v + 1, id := 124 + v * 4 + c } : Tile)))
  let flowers := (List.range 4).map (fun v =>
    ({ suit := Suit.flower, value := v + 1, id := 136 + v } : Tile))
  let seasons := (List.range 4).map (fun v =>
    ({ suit := Suit.season, value := v + 1, id := 140 + v } : Tile))
  numbered ++ winds ++ dragons ++ flowers ++ seasons

/-! ## Wall (`src/js/wall.js`) -/

/-- The wall: live tiles with a draw cursor, and the dead wall. -/
structure Wall where
  tiles : List Tile
  deadWall : List Tile
  drawIndex : Nat
deriving DecidableEq, Repr

/-- `Wall.build()` applied to an already-shuffled permutation of
`createAllTiles` (the Fisher–Yates shuffle consumes `Math.random`, so
the shuffled order is a parameter): the last 14 tiles are spliced off
as the dead wall. -/
def Wall.buildWith (shuffled : List Tile) : Wall :=
  { tiles := shuffled.take (shuffled.length - 14),
    deadWall := shuffled.drop (shuffled.length - 14),
    drawIndex := 0 }

/-- `Wall.draw()`: next live tile, or `none` if exhausted. -/
def Wall.draw (w : Wall) : Option Tile × Wall :=
  if w.tiles.length ≤ w.drawIndex then (none, w)
  else (w.tiles.get? w.drawIndex, { w with drawIndex := w.drawIndex + 1 })

/-- `Wall.drawFromDeadWall()`: pops the last element of the dead wall. -/
def Wall.drawFromDeadWall (w : Wall) : Option Tile × Wall :=
  match w.deadWall.getLast? with
  | none => (none, w)
  | some t => (some t, { w with deadWall := w.deadWall.dropLast })

/-- `Wall.remaining`. -/
def Wall.remaining (w : Wall) : Nat := w.tiles.length - w.drawIndex

/-- Append a drawn (possibly `none`) tile to the `idx`-th hand list
(`hands[idx].push(this.draw())`; JS pushes `null` as well). -/
def pushTo (hands : List (List (Option Tile))) (idx : Nat) (t : Option Tile) :
    List (List (Option Tile)) :=
  hands.set idx ((hands.getD idx []) ++ [t])

/-- The seat order of the draws performed by `Wall.deal(dealerIndex)`:
3 passes in which each player `(dealerIndex + p) % 4` takes 4 tiles,
then one single tile each, then one extra for the dealer (the JS nested
loops flattened into a single draw schedule). -/
def dealSchedule (d : Nat) : List Nat :=
  ((List.range 3).flatMap (fun _r =>
    (List.range 4).flatMap (fun p => List.replicate 4 ((d + p) % 4))))
  ++ ((List.range 4).map (fun p => (d + p) % 4))
  ++ [d]

/-- `Wall.deal(dealerIndex)`. -/
def Wall.deal (d : Nat) (w : Wall) : List (List (Option Tile)) × Wall :=
  (dealSchedule d).foldl
    (fun acc idx =>
      let (t, w2) := acc.2.draw
      (pushTo acc.1 idx t, w2))
    ([[], [], [], []], w)

/-- Positions (0-based offsets into the live wall) that player
`(dealer + p) % 4` receives from a fresh deal, before the dealer's
extra tile: the traditional round-robin of three 4-tile batches
followed by one single tile, starting at the dealer. -/
def dealPositions (p : Nat) : List Nat :=
  ((List.range 3).flatMap (fun r => (List.range 4).map (fun t => 16 * r + 4 * p + t)))
  ++ [48 + p]

/-- Offsets at which a given seat index occurs in a draw schedule. -/
def posOf : List Nat → Nat → List Nat
  | [], _ => []
  | a :: rest, j =>
    let tail := (posOf rest j).map (· + 1)
    if a = j then 0 :: tail else tail

/-! ## Hand (`src/unnamed/part_002` = hand.js) -/

/-- `MELD_TYPE` of constants.js. -/
inductive MeldType where
  | chow | pung | kong_exposed | kong_concealed | kong_added
deriving DecidableEq, Repr

/-- A meld `{ type, tiles[], fromPlayer }`; `fromPlayer` is set by the
game when the meld was formed from another player's discard
(JS `undefined` otherwise). -/
structure Meld where
  type : MeldType
  tiles : List Tile
  fromPlayer : Option Int := none
deriving DecidableEq, Repr

structure Hand where
  playerIndex : Nat
  concealed : List Tile
  melds : List Meld
  flowers : List Tile
  discards : List Tile
deriving DecidableEq, Repr

def Hand.mkEmpty (i : Nat) : Hand :=
  { playerIndex := i, concealed := [], melds := [], flowers := [], discards := [] }

/-- `setInitial(tiles)`: copy then sort. -/
def Hand.setInitial (h : Hand) (tiles : List Tile) : Hand :=
  { h with concealed := sortTiles tiles }

/-- `addTile(tile)`: push then sort; on an already sorted list this is
the sorted insertion. -/
def Hand.addTile (h : Hand) (t : Tile) : Hand :=
  { h with concealed := sortTiles (h.concealed ++ [t]) }

/-- `addFlower(tile)`. -/
def Hand.addFlower (h : Hand) (t : Tile) : Hand :=
  { h with flowers := sortTiles (h.flowers ++ [t]) }

/-- Remove the first tile with the given physical id (`removeTile`,
which finds the index by `t.id` and splices it out); no-op when
absent. -/
def removeFirstById (tid : Nat) : List Tile → List Tile
  | [] => []
  | t :: ts => if t.id == tid then ts else t :: removeFirstById tid ts

def removeById (ts : List Tile) (t : Tile) : List Tile :=
  removeFirstById t.id ts

def Hand.removeTile (h : Hand) (t : Tile) : Hand :=
  { h with concealed := removeById h.concealed t }

/-- Remove and return the first tile whose key matches (the
findIndex-and-splice of `removeTileByKey`). -/
def removeFirstByKey (k : Key) : List Tile → Option Tile × List Tile
  | [] => (none, [])
  | t :: ts =>
    if t.key == k then (some t, ts)
    else
      let (r, ts2) := removeFirstByKey k ts
      (r, t :: ts2)

/-- `removeTileByKey(key)`. -/
def Hand.removeTileByKey (h : Hand) (k : Key) : Option Tile × Hand :=
  let (r, c2) := removeFirstByKey k h.concealed
  (r, { h with concealed := c2 })

/-- `discard(tile)`: remove (by id) from concealed, push onto the
player's own discard pile. -/
def Hand.discard (h : Hand) (t : Tile) : Hand :=
  { h with concealed := removeById h.concealed t, discards := h.discards ++ [t] }

/-- `countByKey(key)`. -/
def Hand.countByKey (h : Hand) (k : Key) : Nat :=
  (h.concealed.filter (fun t => t.key == k)).length

/-- `canPung(discardTile)`. -/
def Hand.canPung (h : Hand) (t : Tile) : Bool := 2 ≤ h.countByKey t.key

/-- `canKongFromDiscard(discardTile)`. -/
def Hand.canKongFromDiscard (h : Hand) (t : Tile) : Bool := 3 ≤ h.countByKey t.key

/-- `canChow(discardTile)`: up to three combos, each a pair of partner
keys (2-element arrays of key strings in JS). -/
def Hand.canChow (h : Hand) (t : Tile) : List (Key × Key) :=
  if !t.isNumberSuit then []
  else
    let s := t.suit
    let v := t.value
    (if 3 ≤ v ∧ 0 < h.countByKey ⟨s, v - 2⟩ ∧ 0 < h.countByKey ⟨s, v - 1⟩ then
      [(⟨s, v - 2⟩, ⟨s, v - 1⟩)] else [])
    ++ (if 2 ≤ v ∧ v ≤ 8 ∧ 0 < h.countByKey ⟨s, v - 1⟩ ∧ 0 < h.countByKey ⟨s, v + 1⟩ then
      [(⟨s, v - 1⟩, ⟨s, v + 1⟩)] else [])
    ++ (if v ≤ 7 ∧ 0 < h.countByKey ⟨s, v + 1⟩ ∧ 0 < h.countByKey ⟨s, v + 2⟩ then
      [(⟨s, v + 1⟩, ⟨s, v + 2⟩)] else [])

/-- `doChow(discardTile, comboKeys)`: collect the claimed tile plus the
two partners removed from concealed (skipping any that is absent, as
the JS `if (t)` does), sort them, push a chow meld. -/
def Hand.doChow (h : Hand) (t : Tile) (combo : Key × Key) : Hand :=
  let (t1, h1) := h.removeTileByKey combo.1
  let (t2, h2) := h1.removeTileByKey combo.2
  let tiles := sortTiles ([t] ++ t1.toList ++ t2.toList)
  { h2 with melds := h2.melds ++ [{ type := MeldType.chow, tiles := tiles }] }

/-- `doPung(discardTile)`. -/
def Hand.doPung (h : Hand) (t : Tile) : Hand :=
  let (t1, h1) := h.removeTileByKey t.key
  let (t2, h2) := h1.removeTileByKey t.key
  let tiles := [t] ++ t1.toList ++ t2.toList
  { h2 with melds := h2.melds ++ [{ type := MeldType.pung, tiles := tiles }] }

/-- `doKongExposed(discardTile)`. -/
def Hand.doKongExposed (h : Hand) (t : Tile) : Hand :=
  let (t1, h1) := h.removeTileByKey t.key
  let (t2, h2) := h1.removeTileByKey t.key
  let (t3, h3) := h2.removeTileByKey t.key
  let tiles := [t] ++ t1.toList ++ t2.toList ++ t3.toList
  { h3 with melds := h3.melds ++ [{ type := MeldType.kong_exposed, tiles := tiles }] }

/-- `doKongConcealed(key)`. -/
def Hand.doKongConcealed (h : Hand) (k : Key) : Hand :=
  let (t1, h1) := h.removeTileByKey k
  let (t2, h2) := h1.removeTileByKey k
  let (t3, h3) := h2.removeTileByKey k
  let (t4, h4) := h3.removeTileByKey k
  let tiles := t1.toList ++ t2.toList ++ t3.toList ++ t4.toList
  { h4 with melds := h4.melds ++ [{ type := MeldType.kong_concealed, tiles := tiles }] }

/-- `doKongAdded(key)`: find the exposed pung of that key, move one
concealed tile into it and retype it (the only in-place meld
mutation). -/
def findPungIdx (k : Key) : List Meld → Option Nat
  | [] => none
  | m :: ms =>
    if m.type == MeldType.pung && (m.tiles.headD ⟨Suit.wan, 1, 0⟩).key == k then some 0
    else (findPungIdx k ms).map (fun i => i + 1)

def Hand.doKongAdded (h : Hand) (k : Key) : Hand :=
  match findPungIdx k h.melds with
  | none => h
  | some i =>
    let (t, h1) := h.removeTileByKey k
    match t with
    | none => h1
    | some tl =>
      let grown := match h1.melds.get? i with
        | some m => { m with tiles := m.tiles ++ [tl], type := MeldType.kong_added }
        | none => ({ type := MeldType.kong_added, tiles := [] } : Meld)
      { h1 with melds := h1.melds.set i grown }

/-! ### Win detection (hand.js, `_tryRemoveSets` / `_decompose`)

The JS backtracking mutates a `groups` count object (keys in insertion
order = first-occurrence order of the sorted concealed list) and
restores counts on backtracking.  We model `groups` as a count
function `Key → Nat` and the `Object.keys` array as the explicit
`keys` list, recursing on a fuel that the wrappers initialise to
`tiles.length + keys.length + 1`; every recursive call either removes
2–3 tiles or skips one exhausted key, so this fuel never runs out. -/

def Groups := Key → Nat

def groupsOf (tiles : List Tile) : Groups :=
  fun k => (tiles.filter (fun t => t.key == k)).length

/-- First-occurrence key list (`Object.keys(groups)` insertion order). -/
def keysOf (tiles : List Tile) : List Key :=
  tiles.foldl (fun acc t => if t.key ∈ acc then acc else acc ++ [t.key]) []

/-- Decrement one key's count (`groups[key] -= n`). -/
def decKey (g : Groups) (k : Key) (n : Nat) : Groups :=
  fun j => if j = k then g j - n else g j

def Key.isNumberSuit (k : Key) : Bool :=
  k.suit == Suit.wan || k.suit == Suit.tung || k.suit == Suit.sok

def succKey (k : Key) : Key := ⟨k.suit, k.value + 1⟩

/-- The chow branch guard of the search: number suit, value ≤ 7, and
both successor keys still available. -/
def chowReady (g : Groups) (k : Key) : Prop :=
  k.isNumberSuit = true ∧ k.value ≤ 7 ∧ 0 < g (succKey k) ∧ 0 < g (succKey (succKey k))

instance (g : Groups) (k : Key) : Decidable (chowReady g k) := by
  unfold chowReady; infer_instance

/-- Remove one tile of each chow key (`groups[key]--` three times). -/
def decChow (g : Groups) (k : Key) : Groups :=
  decKey (decKey (decKey g k 1) (succKey k) 1) (succKey (succKey k)) 1

/-- `_tryRemoveSets(groups, keys, keyIdx, pairUsed)`: branch order is
pair, then pung, then chow, exactly as in the source. -/
def tryGo : Nat → Groups → List Key → Bool → Bool
  | 0, _, _, _ => false
  | _ + 1, _, [], pairUsed => pairUsed
  | fuel + 1, g, k :: rest, pairUsed =>
    if g k = 0 then tryGo fuel g rest pairUsed
    else
      (if ¬pairUsed ∧ 2 ≤ g k then tryGo fuel (decKey g k 2) (k :: rest) true else false)
      || (if 3 ≤ g k then tryGo fuel (decKey g k 3) (k :: rest) pairUsed else false)
      || (if chowReady g k then tryGo fuel (decChow g k) (k :: rest) pairUsed else false)

def winFuel (tiles : List Tile) : Nat := tiles.length + (keysOf tiles).length + 1

/-- `_checkStandardWin(tiles)`. -/
def checkStandardWin (tiles : List Tile) : Bool :=
  tryGo (winFuel tiles) (groupsOf tiles) (keysOf tiles) false

/-- `_checkSevenPairs(tiles)`: exactly 7 distinct keys, each count 2. -/
def checkSevenPairs (tiles : List Tile) : Bool :=
  let ks := keysOf tiles
  ks.length == 7 && ks.all (fun k => groupsOf tiles k == 2)

/-- The 13 orphan keys of `_checkThirteenOrphans`. -/
def orphanKeys : List Key :=
  [⟨Suit.wan, 1⟩, ⟨Suit.wan, 9⟩, ⟨Suit.tung, 1⟩, ⟨Suit.tung, 9⟩,
   ⟨Suit.sok, 1⟩, ⟨Suit.sok, 9⟩,
   ⟨Suit.wind, 1⟩, ⟨Suit.wind, 2⟩, ⟨Suit.wind, 3⟩, ⟨Suit.wind, 4⟩,
   ⟨Suit.dragon, 1⟩, ⟨Suit.dragon, 2⟩, ⟨Suit.dragon, 3⟩]

/-- `_checkThirteenOrphans(tiles)`: all 13 orphan kinds present, and at
least one of them with count exactly 2. -/
def checkThirteenOrphans (tiles : List Tile) : Bool :=
  orphanKeys.all (fun k => 1 ≤ groupsOf tiles k)
  && orphanKeys.any (fun k => groupsOf tiles k == 2)

/-- `canWin()`: standard win, else seven pairs, else thirteen orphans
(the latter two only with no melds and exactly 14 concealed tiles). -/
def Hand.canWin (h : Hand) : Bool :=
  checkStandardWin h.concealed
  || (h.melds.length == 0 && h.concealed.length == 14 && checkSevenPairs h.concealed)
  || (h.melds.length == 0 && h.concealed.length == 14 && checkThirteenOrphans h.concealed)

/-- A set of the standard decomposition (`{type:'pung'|'chow', key,
suit, value}` in JS; suit/value are the key's components). -/
inductive SetType where
  | chow | pung
deriving DecidableEq, Repr

structure SetSpec where
  type : SetType
  key : Key
deriving DecidableEq, Repr

/-- `_decompose(groups, keys, keyIdx, result)`: same search as
`_tryRemoveSets` but accumulating the chosen pair and sets.  The JS
pushes each set before recursing and pops it on backtracking; on
success `result` holds the accumulated list, which is what the
returned value carries here. -/
def decGo : Nat → Groups → List Key → Option Key → List SetSpec →
    Option (Key × List SetSpec)
  | 0, _, _, _, _ => none
  | _ + 1, _, [], pair, sets =>
    match pair with
    | some p => some (p, sets)
    | none => none
  | fuel + 1, g, k :: rest, pair, sets =>
    if g k = 0 then decGo fuel g rest pair sets
    else
      (if pair = none ∧ 2 ≤ g k then
        decGo fuel (decKey g k 2) (k :: rest) (some k) sets else none)
      <|> (if 3 ≤ g k then
        decGo fuel (decKey g k 3) (k :: rest) pair
          (sets ++ [⟨SetType.pung, k⟩]) else none)
      <|> (if chowReady g k then
        decGo fuel (decChow g k) (k :: rest) pair
          (sets ++ [⟨SetType.chow, k⟩]) else none)

/-- Result of `getWinDecomposition()`: one of the two special tags
(carrying the concealed tiles, as the JS `{special, tiles}` does) or a
standard decomposition `{pair, sets, melds}`. -/
inductive Decomp where
  | sevenPairs (tiles : List Tile)
  | thirteenOrphans (tiles : List Tile)
  | standard (pair : Key) (sets : List SetSpec) (melds : List Meld)
deriving DecidableEq, Repr

/-- `getWinDecomposition()`: seven pairs first, then thirteen orphans,
then the standard search; `none` models the JS `null`. -/
def Hand.getWinDecomposition (h : Hand) : Option Decomp :=
  if h.melds.length = 0 ∧ h.concealed.length = 14
      ∧ checkSevenPairs h.concealed = true then
    some (Decomp.sevenPairs h.concealed)
  else if h.melds.length = 0 ∧ h.concealed.length = 14
      ∧ checkThirteenOrphans h.concealed = true then
    some (Decomp.thirteenOrphans h.concealed)
  else
    match decGo (winFuel h.concealed) (groupsOf h.concealed)
        (keysOf h.concealed) none [] with
    | some (p, ss) => some (Decomp.standard p ss h.melds)
    | none => none

/-! ## Scoring (`Scoring` class in `src/js/game.js`, scoring.js part) -/

/-- `MAX_FAN` (constants.js). -/
def maxFan : Nat := 13

/-- Identifier of a scoring rule; the JS breakdown stores the Chinese
display name, the fan value is what matters.  `dragonPung` carries the
dragon value (1 中, 2 發, 3 白). -/
inductive RuleName where
  | thirteenOrphans | sevenPairsRule | allHonours | nineGates
  | allPungs | cleanFlush | mixedFlush | pingWu
  | dragonPung (v : Nat) | seatWindPung | roundWindPung
  | selfDrawnRule | concealedHand | lastTileRule | kongDrawRule
  | smallThreeDragons | bigThreeDragons | smallFourWinds | bigFourWinds
  | flowerSet | matchingFlower | seasonSet | matchingSeason | eightBonus
deriving DecidableEq, Repr

/-- `{ totalFan, breakdown }`. -/
structure ScoreResult where
  totalFan : Nat
  breakdown : List (RuleName × Nat)
deriving DecidableEq, Repr

def sumFan (b : List (RuleName × Nat)) : Nat := (b.map (fun e => e.2)).sum

/-- Scoring context (the fields of `getContext` that
`Scoring.calculate` reads; the AI-only fields are omitted). -/
structure Context where
  seatWind : Nat
  roundWind : Nat
  selfDrawn : Bool
  isLastTile : Bool
  isKongDraw : Bool
  minFan : Nat
deriving DecidableEq, Repr

/-- First tile of a meld (`m.tiles[0]`; JS would throw on an empty
meld, which never occurs — melds are created with ≥ 3 tiles). -/
def meldFirst (m : Meld) : Tile := m.tiles.headD ⟨Suit.wan, 1, 0⟩

/-- The per-meld entry of `allSets`: JS maps every non-chow meld type
to the string `'pung'` (so kongs count as pungs for all set-based
rules), keyed by the meld's first tile. -/
def meldToSetSpec (m : Meld) : SetSpec :=
  { type := if m.type == MeldType.chow then SetType.chow else SetType.pung,
    key := (meldFirst m).key }

/-- `Scoring._checkFlush(allTiles, melds, breakdown)` (the `melds`
parameter is unused in the source too): clean flush 7 fan if a single
number suit and no honours, mixed flush 3 fan if a single number suit
with honours. -/
def checkFlushEntries (allTiles : List Tile) (_melds : List Meld) :
    List (RuleName × Nat) :=
  let numberTiles := allTiles.filter (fun t => t.isNumberSuit)
  let honourTiles := allTiles.filter (fun t => t.isHonour)
  match numberTiles with
  | [] => []
  | t0 :: _ =>
    if numberTiles.all (fun t => t.suit == t0.suit) then
      if honourTiles.length = 0 then [(RuleName.cleanFlush, 7)]
      else [(RuleName.mixedFlush, 3)]
    else []

/-- `Scoring._checkFlowers(hand, context, breakdown)`. -/
def checkFlowersEntries (h : Hand) (ctx : Context) : List (RuleName × Nat) :=
  let flowers := h.flowers.filter (fun t => t.suit == Suit.flower)
  let seasons := h.flowers.filter (fun t => t.suit == Suit.season)
  (if flowers.length = 4 then [(RuleName.flowerSet, 2)] else [])
  ++ (if (flowers.find? (fun f => f.value == ctx.seatWind)).isSome then
      [(RuleName.matchingFlower, 1)] else [])
  ++ (if seasons.length = 4 then [(RuleName.seasonSet, 2)] else [])
  ++ (if (seasons.find? (fun s => s.value == ctx.seatWind)).isSome then
      [(RuleName.matchingSeason, 1)] else [])
  ++ (if h.flowers.length = 8 then [(RuleName.eightBonus, maxFan)] else [])

/-- The set-type test used by the dragon/wind pung rules.  JS tests
`s.type === 'pung' || s.type === MELD_TYPE.PUNG || s.type === (kong
types)`, but every entry of `allSets` has type `'pung'` or `'chow'`
(melds are re-typed by `meldToSetSpec`), so the test is simply
"not a chow". -/
def SetSpec.isPungLike (s : SetSpec) : Bool := s.type == SetType.pung

/-- Nine Gates test (`九蓮寶燈` block): no melds, all tiles one number
suit, counts 1 and 9 at least 3 and 2–8 at least 1. -/
def nineGatesCond (h : Hand) (allTiles : List Tile) : Bool :=
  h.melds.length == 0 &&
  (match allTiles with
   | [] => false
   | t0 :: _ =>
     allTiles.all (fun t => t.suit == t0.suit) && t0.isNumberSuit &&
     decide (3 ≤ (allTiles.filter (fun t => t.value == 1)).length) &&
     decide (3 ≤ (allTiles.filter (fun t => t.value == 9)).length) &&
     ([2, 3, 4, 5, 6, 7, 8].all (fun v =>
       decide (1 ≤ (allTiles.filter (fun t => t.value == v)).length))))

/-- `dragonPungCount` of the standard branch: non-chow sets whose key
is a dragon. -/
def dragonPungCountOf (allSets : List SetSpec) : Nat :=
  (allSets.filter (fun s => s.key.suit == Suit.dragon && !(s.type == SetType.chow))).length

/-- `windPungCount` of the standard branch. -/
def windPungCountOf (allSets : List SetSpec) : Nat :=
  (allSets.filter (fun s => s.key.suit == Suit.wind && !(s.type == SetType.chow))).length

/-- The additive breakdown of the standard branch of
`Scoring.calculate`, in source push order. -/
def standardBreakdown (h : Hand) (ctx : Context) (pair : Key)
    (sets : List SetSpec) : List (RuleName × Nat) :=
  let allSets := sets ++ h.melds.map meldToSetSpec
  let dragonPungCount := dragonPungCountOf allSets
  let windPungCount := windPungCountOf allSets
  (if allSets.all (fun s => !(s.type == SetType.chow)) then [(RuleName.allPungs, 3)] else [])
  ++ checkFlushEntries (h.concealed ++ h.melds.flatMap (fun m => m.tiles)) h.melds
  ++ (if allSets.all (fun s => s.type == SetType.chow) && h.melds.length == 0 then
      [(RuleName.pingWu, 1)] else [])
  ++ ((allSets.filter (fun s => s.isPungLike && s.key.suit == Suit.dragon)).map
      (fun s => (RuleName.dragonPung s.key.value, 1)))
  ++ ((allSets.filter (fun s =>
        s.key == ⟨Suit.wind, ctx.seatWind⟩ && s.isPungLike)).map
      (fun _ => (RuleName.seatWindPung, 1)))
  ++ ((allSets.filter (fun s =>
        s.key == ⟨Suit.wind, ctx.roundWind⟩ && s.isPungLike)).map
      (fun _ => (RuleName.roundWindPung, 1)))
  ++ (if ctx.selfDrawn then [(RuleName.selfDrawnRule, 1)] else [])
  ++ (if h.melds.length == 0 && !ctx.selfDrawn then [(RuleName.concealedHand, 1)] else [])
  ++ (if ctx.isLastTile then [(RuleName.lastTileRule, 1)] else [])
  ++ (if ctx.isKongDraw then [(RuleName.kongDrawRule, 1)] else [])
  ++ (if dragonPungCount == 2 && pair.suit == Suit.dragon then
      [(RuleName.smallThreeDragons, 4)] else [])
  ++ (if dragonPungCount == 3 then [(RuleName.bigThreeDragons, 8)] else [])
  ++ (if windPungCount == 3 && pair.suit == Suit.wind then
      [(RuleName.smallFourWinds, 6)] else [])
  ++ (if windPungCount == 4 then [(RuleName.bigFourWinds, maxFan)] else [])
  ++ checkFlowersEntries h ctx

/-- `Scoring.calculate(hand, context)`. -/
def calculate (h : Hand) (ctx : Context) : ScoreResult :=
  match h.getWinDecomposition with
  | none => ⟨0, []⟩
  | some (Decomp.thirteenOrphans _tiles) =>
    ⟨maxFan, [(RuleName.thirteenOrphans, maxFan)]⟩
  | some (Decomp.sevenPairs tiles) =>
    if tiles.all (fun t => t.isHonour) then
      ⟨maxFan, [(RuleName.sevenPairsRule, 4), (RuleName.allHonours, maxFan)]⟩
    else
      let breakdown := [(RuleName.sevenPairsRule, 4)]
        ++ checkFlushEntries tiles h.melds
        ++ (if ctx.selfDrawn then [(RuleName.selfDrawnRule, 1)] else [])
      ⟨min (sumFan breakdown) maxFan, breakdown⟩
  | some (Decomp.standard pair sets _melds) =>
    let allTiles := h.concealed ++ h.melds.flatMap (fun m => m.tiles)
    if allTiles.all (fun t => t.isHonour) then
      ⟨maxFan, [(RuleName.allHonours, maxFan)]⟩
    else if nineGatesCond h allTiles then
      ⟨maxFan, [(RuleName.nineGates, maxFan)]⟩
    else
      let breakdown := standardBreakdown h ctx pair sets
      ⟨min (sumFan breakdown) maxFan, breakdown⟩

/-- `Scoring.meetsMinimum(totalFan, minFan)`. -/
def meetsMinimum (totalFan minFan : Nat) : Bool := minFan ≤ totalFan

/-- `Scoring.fanToPoints(fan)`: `2 ^ min(fan, 10)`. -/
def fanToPoints (fan : Nat) : Nat := 2 ^ (min fan 10)

/-! ### Payment (`Scoring.calculatePayment`, `Scoring.checkBaoPai`) -/

/-- `{ scoring, selfDrawn, fromPlayer }` stored in `game.winInfo`. -/
structure WinInfo where
  scoring : ScoreResult
  selfDrawn : Bool
  fromPlayer : Option Int := none
deriving DecidableEq, Repr

/-- `{ deltas, responsible }` (the `details` display strings are
omitted). -/
structure PaymentInfo where
  deltas : List Int
  responsible : Int
deriving DecidableEq, Repr

/-- `deltas[i] += d` for an integer index: out-of-range or negative
indices leave the four real entries unchanged (JS would create a
stray property on the array, invisible to the 4 deltas). -/
def addAtN : List Int → Nat → Int → List Int
  | [], _, _ => []
  | x :: xs, 0, d => (x + d) :: xs
  | x :: xs, n + 1, d => x :: addAtN xs n d

def addAtI (l : List Int) (i : Int) (d : Int) : List Int :=
  if i < 0 then l else addAtN l i.toNat d

/-- The repeated tail pattern of each `checkBaoPai` block: the last
meld of the relevant list is responsible when its `fromPlayer` is
defined and differs from the winner. -/
def lastFeeder (ms : List Meld) (winner : Int) : Option Int :=
  match ms.getLast? with
  | some lm =>
    match lm.fromPlayer with
    | some f => if f ≠ winner then some f else none
    | none => none
  | none => none

/-- The dragon melds considered by `checkBaoPai` (a meld counts when
its first tile is a dragon; JS guards `m.tiles[0] &&` so empty melds
are skipped). -/
def dragonMeldsOf (melds : List Meld) : List Meld :=
  melds.filter (fun m =>
    (m.tiles.head?.map (fun t => t.suit == Suit.dragon)).getD false)

/-- Big Three Dragons block: 3+ dragon melds. -/
def baoDragon (melds : List Meld) (winner : Int) : Option Int :=
  let dms := dragonMeldsOf melds
  if 3 ≤ dms.length then lastFeeder dms winner else none

/-- Big Four Winds block: 4+ wind melds. -/
def baoWind (melds : List Meld) (winner : Int) : Option Int :=
  let wms := melds.filter (fun m =>
    (m.tiles.head?.map (fun t => t.suit == Suit.wind)).getD false)
  if 4 ≤ wms.length then lastFeeder wms winner else none

/-- Clean flush block: 4+ melds exposing ≥ 12 tiles, all one number
suit. -/
def baoFlush (melds : List Meld) (winner : Int) : Option Int :=
  if 4 ≤ melds.length then
    let exposedTiles := (melds.map (fun m => m.tiles.length)).sum
    if 12 ≤ exposedTiles then
      if melds.all (fun m =>
           (meldFirst m).suit == (meldFirst (melds.headD ⟨MeldType.pung, [], none⟩)).suit)
         && (meldFirst (melds.headD ⟨MeldType.pung, [], none⟩)).isNumberSuit then
        lastFeeder melds winner
      else none
    else none
  else none

/-- Four kongs block. -/
def baoKong (melds : List Meld) (winner : Int) : Option Int :=
  let kms := melds.filter (fun m =>
    m.type == MeldType.kong_exposed || m.type == MeldType.kong_concealed
      || m.type == MeldType.kong_added)
  if 4 ≤ kms.length then lastFeeder kms winner else none

/-- `Scoring.checkBaoPai(game, winner)` applied to the winner's hand:
the four blocks in priority order, `-1` if none fires. -/
def checkBaoPai (hand : Hand) (winner : Int) : Int :=
  if hand.melds.length = 0 then -1
  else
    ((baoDragon hand.melds winner).orElse (fun _ =>
      (baoWind hand.melds winner).orElse (fun _ =>
        (baoFlush hand.melds winner).orElse (fun _ =>
          baoKong hand.melds winner)))).getD (-1)

/-! ## Game state machine (`Game` class in `src/js/game.js`)

Presentation-only members (characters/expressions, voice announcer,
`onStateChange`/`onUpdate` callbacks, the `setTimeout` pacing) are
omitted: they do not touch wall/hand/score state.  The AI decision
functions of `ai.js`, which are `Math.random`-driven and whose results
are consumed opaquely, are oracle fields. -/

/-- `GAME_STATE` (constants.js) plus `nullLock` for the JS
`this.state = null` lock set by `playerDiscard`. -/
inductive GameState where
  | menu | dice_roll | dealing | player_turn | player_discard
  | ai_turn | claiming | round_end | game_end | nullLock
deriving DecidableEq, Repr

inductive ClaimAction where
  | win | kong | pung | chow
deriving DecidableEq, Repr

/-- The two kong types `playerKong` accepts. -/
inductive KongType where
  | kong_concealed | kong_added
deriving DecidableEq, Repr

inductive Phase where
  | before_discard | after_discard
deriving DecidableEq, Repr

/-- One descending pass of the `_handleFlowerBloom` inner `for` loop:
inspect index `i` (the `i+1` pattern below inspects index `i`), replace
a bonus tile by a dead-wall (else live-wall) draw appended at the end,
or leave it if both walls are empty (`continue`). -/
def bloomScan : Nat → Wall → List Tile → List Tile → Bool →
    Wall × List Tile × List Tile × Bool
  | 0, w, conc, fl, found => (w, conc, fl, found)
  | i + 1, w, conc, fl, found =>
    match conc.get? i with
    | none => bloomScan i w conc fl found
    | some t =>
      if t.isBonus then
        let (r1, w1) := w.drawFromDeadWall
        match r1 with
        | some r =>
          bloomScan i w1 (conc.eraseIdx i ++ [r]) (sortTiles (fl ++ [t])) true
        | none =>
          let (r2, w2) := w1.draw
          match r2 with
          | some r =>
            bloomScan i w2 (conc.eraseIdx i ++ [r]) (sortTiles (fl ++ [t])) true
          | none => bloomScan i w2 conc fl found
      else bloomScan i w conc fl found

/-- The `while (foundBonus)` outer loop of `_handleFlowerBloom`; each
pass that continues has consumed at least one wall tile, so the
wrapper's fuel (total wall tiles + 1) always suffices. -/
def bloomLoop : Nat → Wall → List Tile → List Tile → Wall × List Tile × List Tile
  | 0, w, conc, fl => (w, conc, fl)
  | fuel + 1, w, conc, fl =>
    let (w2, conc2, fl2, found) := bloomScan conc.length w conc fl false
    if found then bloomLoop fuel w2 conc2 fl2 else (w2, conc2, fl2)

/-- `_handleFlowerBloom(playerIndex)` acting on the wall and the hand
list (the only game state it touches); ends with `hand.sort()`. -/
def bloomPlayer (w : Wall) (hands : List Hand) (p : Nat) :
    Option (Wall × List Hand) :=
  match hands.get? p with
  | none => none
  | some h =>
    let fuel := w.deadWall.length + w.remaining + 1
    let (w2, conc, fl) := bloomLoop fuel w h.concealed h.flowers
    some (w2, hands.set p { h with concealed := sortTiles conc, flowers := fl })

/-- The `while (target % 3 !== expectedMod && target > 0) target--;`
loop of `_validateHandSize`. -/
def findTarget : Nat → Nat → Nat
  | 0, _ => 0
  | t + 1, m => if (t + 1) % 3 = m then t + 1 else findTarget t m

/-- The pop-to-discards repair loop of `_validateHandSize`, run
`actual - target` times. -/
def popExcessN : Nat → Hand → Hand
  | 0, h => h
  | n + 1, h =>
    match h.concealed.getLast? with
    | none => h
    | some t =>
      popExcessN n { h with
        concealed := h.concealed.dropLast,
        discards := h.discards ++ [t] }

/-- The draw-up repair loop of `_validateHandSize` (draw, add, bloom,
until the target size or wall exhaustion). -/
def drawUpGo : Nat → Wall → List Hand → Nat → Nat → Option (Wall × List Hand)
  | 0, _, _, _, _ => none
  | fuel + 1, w, hands, p, target =>
    match hands.get? p with
    | none => none
    | some h =>
      if h.concealed.length < target then
        let (extra, w2) := w.draw
        match extra with
        | none => some (w2, hands)
        | some t =>
          match bloomPlayer w2 (hands.set p (h.addTile t)) p with
          | none => none
          | some (w3, hs3) => drawUpGo fuel w3 hs3 p target
      else some (w, hands)

/-- `_validateHandSize(playerIndex, phase)`: when the concealed count
is not `expectedMod (mod 3)`, repair towards the nearest such value
at or below the count (draw up only in the degenerate `target = 0`
adjustment case); `hand.sort()` runs only on the draw-up path. -/
def validatePlayer (w : Wall) (hands : List Hand) (p : Nat) (phase : Phase) :
    Option (Wall × List Hand) :=
  match hands.get? p with
  | none => none
  | some h =>
    let actual := h.concealed.length
    let m := if phase = Phase.before_discard then 2 else 1
    if actual % 3 = m then some (w, hands)
    else
      let t0 := findTarget actual m
      let target := if t0 = 0 then m else t0
      if actual < target then
        match drawUpGo (w.deadWall.length + w.remaining + 1) w hands p target with
        | none => none
        | some (w2, hs2) =>
          match hs2.get? p with
          | none => none
          | some h2 =>
            some (w2, hs2.set p { h2 with concealed := sortTiles h2.concealed })
      else if target < actual then
        some (w, hands.set p (popExcessN (actual - target) h))
      else some (w, hands)

structure Game where
  wall : Wall
  hands : List Hand
  state : GameState
  currentPlayer : Nat
  dealerIndex : Nat
  roundWind : Nat
  roundNumber : Nat
  seatWinds : List Nat
  lastDiscard : Option Tile
  lastDiscardPlayer : Int
  turnCount : Nat
  winner : Int
  winInfo : Option WinInfo
  minFan : Nat
  pendingClaims : List ClaimAction
  scores : List Int
  totalRounds : Nat
  maxRounds : Nat
  paymentInfo : Option PaymentInfo
  diceResults : List Nat
  selfDrawnFlag : Bool
  isKongDrawFlag : Bool
  drawnTile : Option Tile
  aiDecideClaim : Nat → Tile → Bool → Option ClaimAction
  aiChooseDiscard : Nat → Option Tile
  aiChooseChowCombo : List (Key × Key) → Option (Key × Key)

/-- `getContext(playerIndex)` restricted to the fields `calculate`
reads. -/
def getContext (g : Game) (p : Nat) : Context :=
  { seatWind := g.seatWinds.getD p 0,
    roundWind := g.roundWind,
    selfDrawn := g.selfDrawnFlag,
    isLastTile := decide (g.wall.remaining ≤ 0),
    isKongDraw := g.isKongDrawFlag,
    minFan := g.minFan }

/-- The per-loser payment of a normal self-drawn win: a dealer winner
collects double from everyone; a dealer loser pays double. -/
def selfDrawnPay (basePoints : Int) (isDealer : Bool) (dealerIndex : Nat)
    (i : Nat) : Int :=
  if isDealer then basePoints * 2
  else if i = dealerIndex then basePoints * 2
  else basePoints

/-- `Scoring.calculatePayment(game)`; `none` models the JS crashes
(missing `winInfo`/hand) off the completed-round states. -/
def calculatePayment (g : Game) : Option PaymentInfo :=
  if g.winner < 0 then some ⟨[0, 0, 0, 0], -1⟩
  else
    match g.winInfo with
    | none => none
    | some info =>
      let basePoints : Int := (fanToPoints info.scoring.totalFan : Nat)
      let isDealer : Bool := g.winner == (g.dealerIndex : Int)
      if info.selfDrawn then
        match g.hands.get? g.winner.toNat with
        | none => none
        | some whand =>
          let responsible := checkBaoPai whand g.winner
          if 0 ≤ responsible then
            let totalPay := basePoints * 3
            some ⟨addAtI (addAtI [0, 0, 0, 0] responsible (-totalPay)) g.winner totalPay,
                  responsible⟩
          else
            let pay := selfDrawnPay basePoints isDealer g.dealerIndex
            let deltas := (List.range 4).foldl (fun ds (i : Nat) =>
              if (i : Int) = g.winner then ds
              else addAtI (addAtI ds (i : Int) (-(pay i))) g.winner (pay i)) [0, 0, 0, 0]
            some ⟨deltas, -1⟩
      else
        match info.fromPlayer with
        | none => none
        | some fp =>
          let pay := if isDealer || fp == (g.dealerIndex : Int) then basePoints * 2
            else basePoints
          some ⟨addAtI (addAtI [0, 0, 0, 0] fp (-pay)) g.winner pay, -1⟩

/-- `_applyPayment()`: record the payment, apply the deltas to the
scores (both lists have 4 entries in every real game), bump
`totalRounds`. -/
def applyPayment (g : Game) : Option Game :=
  match calculatePayment g with
  | none => none
  | some pi =>
    some { g with
      paymentInfo := some pi,
      scores := List.zipWith (fun a b => a + b) g.scores pi.deltas,
      totalRounds := g.totalRounds + 1 }

/-- `_handleFlowerBloom` lifted to the game. -/
def handleFlowerBloom (g : Game) (p : Nat) : Option Game :=
  (bloomPlayer g.wall g.hands p).map (fun r => { g with wall := r.1, hands := r.2 })

/-- `_validateHandSize` lifted to the game. -/
def validateHandSize (g : Game) (p : Nat) (phase : Phase) : Option Game :=
  (validatePlayer g.wall g.hands p phase).map
    (fun r => { g with wall := r.1, hands := r.2 })

/-- `_advanceTurn()`. -/
def advanceTurn (g : Game) : Game :=
  let cp := ((g.lastDiscardPlayer + 1) % 4).toNat
  { g with
    currentPlayer := cp, turnCount := g.turnCount + 1,
    state := if cp = 0 then GameState.player_turn else GameState.ai_turn }

/-- `_handleDraw()` (wall exhausted, drawn round). -/
def handleDrawnRound (g : Game) : Option Game :=
  applyPayment { g with winner := -1, winInfo := none, state := GameState.round_end }

/-- `hand.melds[hand.melds.length - 1].fromPlayer = fp` (a meld was
always just pushed when this runs). -/
def setLastMeldFrom (h : Hand) (fp : Int) : Hand :=
  match h.melds.getLast? with
  | none => h
  | some m => { h with melds := h.melds.dropLast ++ [{ m with fromPlayer := some fp }] }

/-- Fuel for the `_processClaims`/`_executeAIClaim` claim chain: every
chained claim permanently removes at least three tiles from the
claimant's concealed hand, so `4 * 144` steps can never be reached. -/
def claimChainFuel : Nat := 576

mutual

/-- `_processClaims(discardTile, fromPlayer)`: seat 0 (the human) is
inspected first — a temporary insert of the discard tests a win, then
kong/pung/chow eligibility; any eligible action moves the game to
`CLAIMING` and stops.  Otherwise the AI seats are polled in seating
order and the best claim (`win > kong/pung > chow`, first seat wins
ties) is executed, else the turn advances. -/
def processClaims : Nat → Game → Tile → Int → Option Game
  | 0, _, _, _ => none
  | fuel + 1, g, discardTile, fromPlayer =>
    let finishAI : Game → Option Game := fun gx =>
      let best := ([1, 2, 3] : List Nat).foldl
        (fun (best : Option (Nat × ClaimAction × Nat)) (i : Nat) =>
          if (i : Int) = fromPlayer then best
          else
            let isNextPlayer := (fromPlayer + 1) % 4 = (i : Int)
            match gx.aiDecideClaim i discardTile isNextPlayer with
            | some claim =>
              let priority : Nat := match claim with
                | ClaimAction.win => 3
                | ClaimAction.kong => 2
                | ClaimAction.pung => 2
                | ClaimAction.chow => 1
              match best with
              | some (_, _, bp) =>
                if bp < priority then some (i, claim, priority) else best
              | none => some (i, claim, priority)
            | none => best)
        none
      match best with
      | some (p, act, _) => executeAIClaim fuel gx p act discardTile fromPlayer
      | none => some (advanceTurn gx)
    if fromPlayer = 0 then finishAI g
    else
      match g.hands.get? 0 with
      | none => none
      | some h0 =>
        let htest := h0.addTile discardTile
        let winOk := htest.canWin &&
          meetsMinimum (calculate htest { getContext g 0 with selfDrawn := false }).totalFan
            g.minFan
        let hrest := { htest with concealed := removeById htest.concealed discardTile }
        let g2 := { g with hands := g.hands.set 0 hrest }
        let actions :=
          (if winOk then [ClaimAction.win] else [])
          ++ (if hrest.canKongFromDiscard discardTile then [ClaimAction.kong] else [])
          ++ (if hrest.canPung discardTile then [ClaimAction.pung] else [])
          ++ (if (fromPlayer + 1) % 4 = 0 ∧ (hrest.canChow discardTile) ≠ [] then
              [ClaimAction.chow] else [])
        if actions.isEmpty then finishAI g2
        else some { g2 with pendingClaims := actions, state := GameState.claiming }
termination_by fuel _ _ _ => (fuel, 0)

/-- `_executeAIClaim(playerIdx, action, discardTile, fromPlayer)`
(the `setTimeout` body, run synchronously). -/
def executeAIClaim : Nat → Game → Nat → ClaimAction → Tile → Int → Option Game
  | fuel, g, playerIdx, action, discardTile, fromPlayer =>
    match g.hands.get? playerIdx with
    | none => some g
    | some _ =>
      if fromPlayer < 0 then none
      else
        match g.hands.get? fromPlayer.toNat with
        | none => none
        | some dh =>
          let dh2 := { dh with discards := removeById dh.discards discardTile }
          let g := { g with hands := g.hands.set fromPlayer.toNat dh2 }
          match g.hands.get? playerIdx with
          | none => none
          | some hand =>
            let discardAndContinue : Game → Hand → Option Game := fun gx hx =>
              match gx.aiChooseDiscard playerIdx with
              | none => none
              | some d =>
                let gx := { gx with
                  hands := gx.hands.set playerIdx (hx.discard d),
                  lastDiscard := some d, lastDiscardPlayer := (playerIdx : Int) }
                processClaims fuel gx d (playerIdx : Int)
            match action with
            | ClaimAction.win =>
              let hand := hand.addTile discardTile
              let g := { g with hands := g.hands.set playerIdx hand }
              let scoring := calculate hand { getContext g playerIdx with selfDrawn := false }
              applyPayment { g with
                winner := (playerIdx : Int),
                winInfo := some ⟨scoring, false, some fromPlayer⟩,
                state := GameState.round_end }
            | ClaimAction.pung =>
              let hand := setLastMeldFrom (hand.doPung discardTile) fromPlayer
              let g := { g with hands := g.hands.set playerIdx hand }
              discardAndContinue g hand
            | ClaimAction.chow =>
              let combos := hand.canChow discardTile
              match g.aiChooseChowCombo combos with
              | none => none
              | some combo =>
                let hand := setLastMeldFrom (hand.doChow discardTile combo) fromPlayer
                let g := { g with hands := g.hands.set playerIdx hand }
                discardAndContinue g hand
            | ClaimAction.kong =>
              let hand := setLastMeldFrom (hand.doKongExposed discardTile) fromPlayer
              let g := { g with hands := g.hands.set playerIdx hand }
              let (replacement, wall) := g.wall.drawFromDeadWall
              let g := { g with wall := wall }
              let kongTail : Game → Option Game := fun gx =>
                match validateHandSize gx playerIdx Phase.before_discard with
                | none => none
                | some gx =>
                  match gx.hands.get? playerIdx with
                  | none => none
                  | some h4 => discardAndContinue gx h4
              match replacement with
              | some r =>
                match g.hands.get? playerIdx with
                | none => none
                | some h2 =>
                  match handleFlowerBloom
                      { g with hands := g.hands.set playerIdx (h2.addTile r) } playerIdx with
                  | none => none
                  | some g =>
                    match g.hands.get? playerIdx with
                    | none => none
                    | some h3 =>
                      if h3.canWin then
                        let scoring := calculate h3
                          { getContext g playerIdx with selfDrawn := true, isKongDraw := true }
                        if meetsMinimum scoring.totalFan g.minFan then
                          applyPayment { g with
                            winner := (playerIdx : Int),
                            winInfo := some ⟨scoring, true, none⟩,
                            state := GameState.round_end }
                        else kongTail g
                      else kongTail g
              | none => kongTail g
termination_by fuel _ _ _ _ _ => (fuel, 1)

end

/-- `playerDiscard(tile)`: rejected (returning `false`, game
unchanged) outside `PLAYER_DISCARD`; otherwise lock the state, move
the tile to the discard pile and process claims. -/
def playerDiscard (g : Game) (tile : Tile) : Option (Bool × Game) :=
  if g.state ≠ GameState.player_discard then some (false, g)
  else
    match g.hands.get? 0 with
    | none => none
    | some h0 =>
      let g := { g with
        state := GameState.nullLock,
        hands := g.hands.set 0 (h0.discard tile),
        lastDiscard := some tile, lastDiscardPlayer := 0,
        selfDrawnFlag := false, drawnTile := none }
      (processClaims claimChainFuel g tile 0).map (fun g2 => (true, g2))

/-- `playerDraw()`: rejected (returning `false`, game unchanged)
outside `PLAYER_TURN`; wall exhaustion forces the drawn round. -/
def playerDraw (g : Game) : Option (Bool × Game) :=
  if g.state ≠ GameState.player_turn then some (false, g)
  else
    let (t, wall) := g.wall.draw
    let g := { g with wall := wall }
    match t with
    | none => (handleDrawnRound g).map (fun g2 => (false, g2))
    | some tile =>
      match g.hands.get? 0 with
      | none => none
      | some h0 =>
        match handleFlowerBloom { g with hands := g.hands.set 0 (h0.addTile tile) } 0 with
        | none => none
        | some g =>
          let g := { g with
            drawnTile := if tile.isBonus then none else some tile,
            selfDrawnFlag := true, isKongDrawFlag := false }
          match validateHandSize g 0 Phase.before_discard with
          | none => none
          | some g => some (true, { g with state := GameState.player_discard })

/-- `playerClaim(action, chowCombo)`: execute the human's claim on
`lastDiscard`.  Note that the `'win'` branch returns before the code
that splices the claimed tile out of the discarder's pile. -/
def playerClaim (g : Game) (action : ClaimAction) (chowCombo : Option (Key × Key)) :
    Option Game :=
  match g.lastDiscard with
  | none => none
  | some tile =>
    match g.hands.get? 0 with
    | none => none
    | some hand =>
      match action with
      | ClaimAction.win =>
        let hand := hand.addTile tile
        let g := { g with hands := g.hands.set 0 hand }
        let scoring := calculate hand { getContext g 0 with selfDrawn := false }
        applyPayment { g with
          winner := 0,
          winInfo := some ⟨scoring, false, some g.lastDiscardPlayer⟩,
          state := GameState.round_end }
      | _ =>
        let stepHand : Option Hand :=
          match action with
          | ClaimAction.kong =>
            some (setLastMeldFrom (hand.doKongExposed tile) g.lastDiscardPlayer)
          | ClaimAction.pung =>
            some (setLastMeldFrom (hand.doPung tile) g.lastDiscardPlayer)
          | ClaimAction.chow =>
            chowCombo.map (fun c => setLastMeldFrom (hand.doChow tile c) g.lastDiscardPlayer)
          | ClaimAction.win => none
        match stepHand with
        | none => none
        | some hand2 =>
          let g := { g with hands := g.hands.set 0 hand2 }
          let afterKong : Option Game :=
            match action with
            | ClaimAction.kong =>
              let (replacement, wall) := g.wall.drawFromDeadWall
              let g := { g with wall := wall }
              match replacement with
              | some r =>
                match g.hands.get? 0 with
                | none => none
                | some h2 =>
                  (handleFlowerBloom { g with hands := g.hands.set 0 (h2.addTile r) } 0).map
                    (fun g2 => { g2 with isKongDrawFlag := true, selfDrawnFlag := true })
              | none => some g
            | _ => some g
          match afterKong with
          | none => none
          | some g =>
            let g := { g with state := GameState.player_discard }
            if g.lastDiscardPlayer < (0 : Int) then none
            else
              match g.hands.get? g.lastDiscardPlayer.toNat with
              | none => none
              | some dh =>
                let dh2 := { dh with discards := removeById dh.discards tile }
                let g := { g with hands := g.hands.set g.lastDiscardPlayer.toNat dh2 }
                validateHandSize g 0 Phase.before_discard

/-- `playerKong(type, key)`: declare a concealed or added kong, draw
the dead-wall replacement if available, then validate the hand size
and return to `PLAYER_DISCARD` (there is no state guard in the
source). -/
def playerKong (g : Game) (type : KongType) (key : Key) : Option Game :=
  match g.hands.get? 0 with
  | none => none
  | some hand =>
    let hand := match type with
      | KongType.kong_concealed => hand.doKongConcealed key
      | KongType.kong_added => hand.doKongAdded key
    let g := { g with hands := g.hands.set 0 hand }
    let (replacement, wall) := g.wall.drawFromDeadWall
    let g := { g with wall := wall }
    let gOpt : Option Game :=
      match replacement with
      | some r =>
        match g.hands.get? 0 with
        | none => none
        | some h2 =>
          (handleFlowerBloom { g with hands := g.hands.set 0 (h2.addTile r) } 0).map
            (fun g2 => { g2 with isKongDrawFlag := true, selfDrawnFlag := true })
      | none => some g
    match gOpt with
    | none => none
    | some g2 =>
      (validateHandSize g2 0 Phase.before_discard).map
        (fun g3 => { g3 with state := GameState.player_discard })

/-- Sequence the dealt `Option Tile` lists (`setInitial` sorts the
dealt tiles; sorting a JS `null` would throw, so a short deal is a
crash). -/
def seqOptions : List (Option Tile) → Option (List Tile)
  | [] => some []
  | none :: _ => none
  | some t :: rest => (seqOptions rest).map (fun l => t :: l)

/-- `startRound()` with the shuffled wall order as the randomness
parameter: build the wall, deal, assign seat winds
(`((i - dealerIndex + 4) % 4) + 1`, computed in `Int` as in JS),
resolve initial blooms dealer-first, validate all hand sizes, seat the
dealer. -/
def startRoundCore (dealerIndex : Nat) (shuffled : List Tile) :
    Option (Wall × List Hand) :=
  let wall := Wall.buildWith shuffled
  let dealRes := wall.deal dealerIndex
  match seqOptions (dealRes.1.getD 0 []), seqOptions (dealRes.1.getD 1 []),
      seqOptions (dealRes.1.getD 2 []), seqOptions (dealRes.1.getD 3 []) with
  | some l0, some l1, some l2, some l3 =>
    let hands := [(Hand.mkEmpty 0).setInitial l0, (Hand.mkEmpty 1).setInitial l1,
                  (Hand.mkEmpty 2).setInitial l2, (Hand.mkEmpty 3).setInitial l3]
    let blooms := (List.range 4).foldl
      (fun acc i => acc.bind (fun r => bloomPlayer r.1 r.2 ((dealerIndex + i) % 4)))
      (some (dealRes.2, hands))
    match blooms with
    | none => none
    | some (w, hs) =>
      (List.range 4).foldl
        (fun acc i => acc.bind (fun r => validatePlayer r.1 r.2 i
          (if i = dealerIndex then Phase.before_discard else Phase.after_discard)))
        (some (w, hs))
  | _, _, _, _ => none

def startRound (g : Game) (shuffled : List Tile) : Option Game :=
  (startRoundCore g.dealerIndex shuffled).map (fun r =>
    { g with
      wall := r.1, hands := r.2,
      seatWinds := (List.range 4).map (fun i =>
        ((((i : Int) - (g.dealerIndex : Int) + 4) % 4).toNat) + 1),
      currentPlayer := g.dealerIndex, lastDiscard := none, lastDiscardPlayer := -1,
      turnCount := 0, winner := -1, winInfo := none,
      selfDrawnFlag := true, isKongDrawFlag := false, drawnTile := none,
      state := if g.dealerIndex = 0 then GameState.player_discard
        else GameState.ai_turn })

/-- `confirmDice()`: `dealerIndex = (sum - 1) % 4` then `startRound()`
(the dice are each at least 1, so the `Nat` subtraction agrees with
JS). -/
def confirmDice (g : Game) (shuffled : List Tile) : Option Game :=
  startRound { g with dealerIndex := (g.diceResults.sum - 1) % 4 } shuffled

/-- All tiles accounted to one hand: concealed + meld tiles + bonus
tiles + own discard pile. -/
def Hand.tileCount (h : Hand) : Nat :=
  h.concealed.length + (h.melds.map (fun m => m.tiles.length)).sum
    + h.flowers.length + h.discards.length

/-- The global tile count of claim C1: all four hands plus
`wall.remaining` plus `wall.deadWall.length`. -/
def totalTiles (g : Game) : Nat :=
  (g.hands.map Hand.tileCount).sum + g.wall.remaining + g.wall.deadWall.length

/-! ## Helper lemmas -/

lemma startRound_dealerIndex (g : Game) (s : List Tile) (g2 : Game)
    (h : startRound g s = some g2) : g2.dealerIndex = g.dealerIndex := by
  unfold startRound at h
  cases hc : startRoundCore g.dealerIndex s with
  | none => rw [hc] at h; cases h
  | some r => rw [hc] at h; cases h; rfl

lemma isSome_orElseO (a b : Option α) : (a <|> b).isSome = (a.isSome || b.isSome) := by
  cases a <;> rfl

/-! ### Equivalence of the two win searches (`_tryRemoveSets` and
`_decompose` branch identically, so the success conditions agree) -/

lemma isSome_decGo_eq_tryGo (fuel : Nat) :
    ∀ (g : Groups) (keys : List Key) (pair : Option Key) (sets : List SetSpec),
    (decGo fuel g keys pair sets).isSome = tryGo fuel g keys pair.isSome := by
  induction fuel with
  | zero => intro g keys pair sets; rfl
  | succ n ih =>
    intro g keys pair sets
    cases keys with
    | nil => cases pair <;> rfl
    | cons k rest =>
      by_cases h0 : g k = 0
      · simp only [decGo, tryGo, if_pos h0]
        exact ih g rest pair sets
      · simp only [decGo, tryGo, if_neg h0, isSome_orElseO]
        cases pair with
        | none =>
          by_cases h2 : 2 ≤ g k <;> by_cases h3 : 3 ≤ g k <;>
            by_cases hch : chowReady g k <;>
            simp [h2, h3, hch, ih, Bool.or_assoc]
        | some p =>
          by_cases h3 : 3 ≤ g k <;> by_cases hch : chowReady g k <;>
            simp [h3, hch, ih, Bool.or_assoc]

/-! ### Soundness of the decomposition: consumed counts -/

/-- Tiles (by key) consumed by the chosen pair. -/
def pairCount : Option Key → Key → Nat
  | some p, k => if k = p then 2 else 0
  | none, _ => 0

/-- Tiles (by key) consumed by one decomposition set. -/
def specCount (s : SetSpec) (k : Key) : Nat :=
  match s.type with
  | SetType.pung => if k = s.key then 3 else 0
  | SetType.chow =>
    (if k = s.key then 1 else 0) + (if k = succKey s.key then 1 else 0)
      + (if k = succKey (succKey s.key) then 1 else 0)

def setsCount (sets : List SetSpec) (k : Key) : Nat :=
  (sets.map (fun s => specCount s k)).sum

lemma pairCount_some (p k : Key) : pairCount (some p) k = if k = p then 2 else 0 := rfl

lemma pairCount_none (k : Key) : pairCount none k = 0 := rfl

lemma specCount_pung (k0 k : Key) :
    specCount ⟨SetType.pung, k0⟩ k = if k = k0 then 3 else 0 := rfl

lemma setsCount_nil (k : Key) : setsCount [] k = 0 := rfl

lemma setsCount_append (a b : List SetSpec) (k : Key) :
    setsCount (a ++ b) k = setsCount a k + setsCount b k := by
  simp [setsCount]

lemma setsCount_singleton (s : SetSpec) (k : Key) :
    setsCount [s] k = specCount s k := by
  simp [setsCount]

lemma decKey_le (g : Groups) (k j : Key) (n : Nat) : decKey g k n j ≤ g j := by
  unfold decKey; split <;> omega

lemma decChow_le (g : Groups) (k j : Key) : decChow g k j ≤ g j := by
  unfold decChow
  calc decKey (decKey (decKey g k 1) (succKey k) 1) (succKey (succKey k)) 1 j
      ≤ decKey (decKey g k 1) (succKey k) 1 j := decKey_le ..
    _ ≤ decKey g k 1 j := decKey_le ..
    _ ≤ g j := decKey_le ..

lemma decKey_balance (g : Groups) (k0 k : Key) (n : Nat) (h : n ≤ g k0) :
    g k = decKey g k0 n k + (if k = k0 then n else 0) := by
  by_cases hk : k = k0
  · subst hk; unfold decKey; rw [if_pos rfl, if_pos rfl]; omega
  · unfold decKey; rw [if_neg hk, if_neg hk]; omega

lemma succKey_value (k : Key) : (succKey k).value = k.value + 1 := rfl

lemma ne_succKey (k : Key) : k ≠ succKey k := by
  intro h
  have := congrArg Key.value h
  rw [succKey_value] at this
  omega

lemma ne_succKey2 (k : Key) : k ≠ succKey (succKey k) := by
  intro h
  have := congrArg Key.value h
  rw [succKey_value, succKey_value] at this
  omega

lemma decChow_balance (g : Groups) (k0 k : Key) (h0 : 0 < g k0)
    (h1 : 0 < g (succKey k0)) (h2 : 0 < g (succKey (succKey k0))) :
    g k = decChow g k0 k + specCount ⟨SetType.chow, k0⟩ k := by
  have b1 := decKey_balance g k0 k 1 h0
  have e1 : decKey g k0 1 (succKey k0) = g (succKey k0) := by
    unfold decKey; rw [if_neg (Ne.symm (ne_succKey k0))]
  have b2 := decKey_balance (decKey g k0 1) (succKey k0) k 1 (by rw [e1]; exact h1)
  have e2 : decKey (decKey g k0 1) (succKey k0) 1 (succKey (succKey k0))
      = g (succKey (succKey k0)) := by
    unfold decKey
    rw [if_neg (Ne.symm (ne_succKey (succKey k0))), if_neg (Ne.symm (ne_succKey2 k0))]
  have b3 := decKey_balance (decKey (decKey g k0 1) (succKey k0) 1)
    (succKey (succKey k0)) k 1 (by rw [e2]; exact h2)
  unfold decChow
  simp only [specCount]
  omega

lemma decGo_sound (fuel : Nat) :
    ∀ (g : Groups) (keys : List Key) (pair : Option Key) (sets : List SetSpec)
      (p : Key) (ss : List SetSpec),
    decGo fuel g keys pair sets = some (p, ss) →
    (∀ k, 0 < g k → k ∈ keys) →
    ∀ k, g k + pairCount pair k + setsCount sets k
      = pairCount (some p) k + setsCount ss k := by
  induction fuel with
  | zero => intro g keys pair sets p ss h; cases h
  | succ n ih =>
    intro g keys pair sets p ss h hinv k
    cases keys with
    | nil =>
      cases pair with
      | none => cases h
      | some p0 =>
        simp only [decGo, Option.some.injEq, Prod.mk.injEq] at h
        obtain ⟨hp, hs⟩ := h
        have hz : g k = 0 := by
          by_contra hne
          exact absurd (hinv k (Nat.pos_of_ne_zero hne)) (List.not_mem_nil k)
        subst hp; subst hs; rw [hz]; omega
    | cons k0 rest =>
      by_cases h0 : g k0 = 0
      · simp only [decGo, if_pos h0] at h
        refine ih g rest pair sets p ss h ?_ k
        intro j hj
        have hmem := hinv j hj
        rcases List.mem_cons.mp hmem with rfl | hr
        · exact absurd h0 (Nat.pos_iff_ne_zero.mp hj)
        · exact hr
      · simp only [decGo, if_neg h0] at h
        rcases (Option.orElse_eq_some _ _ _).mp h with hbr | ⟨_, h⟩
        · -- pair branch
          split_ifs at hbr with hc
          · obtain ⟨hpn, h2⟩ := hc
            subst hpn
            have hrec := ih _ _ _ _ _ _ hbr
              (fun j hj => hinv j (Nat.lt_of_lt_of_le hj (decKey_le g k0 j 2))) k
            have hbal := decKey_balance g k0 k 2 h2
            rw [pairCount_some] at hrec
            rw [pairCount_none]
            omega
        · rcases (Option.orElse_eq_some _ _ _).mp h with hbr | ⟨_, hbr⟩
          · -- pung branch
            split_ifs at hbr with hc
            · have hrec := ih _ _ _ _ _ _ hbr
                (fun j hj => hinv j (Nat.lt_of_lt_of_le hj (decKey_le g k0 j 3))) k
              rw [setsCount_append, setsCount_singleton, specCount_pung] at hrec
              have hbal := decKey_balance g k0 k 3 hc
              omega
          · -- chow branch
            split_ifs at hbr with hc
            · obtain ⟨hns, h7, hs1, hs2⟩ := hc
              have hrec := ih _ _ _ _ _ _ hbr
                (fun j hj => hinv j (Nat.lt_of_lt_of_le hj (decChow_le g k0 j))) k
              rw [setsCount_append, setsCount_singleton] at hrec
              have hbal := decChow_balance g k0 k (Nat.pos_of_ne_zero h0) hs1 hs2
              omega

lemma groupsOf_append (a b : List Tile) (k : Key) :
    groupsOf (a ++ b) k = groupsOf a k + groupsOf b k := by
  simp [groupsOf, List.filter_append]

lemma keysOf_aux (tiles : List Tile) :
    ∀ (acc : List Key) (k : Key),
    (k ∈ acc ∨ ∃ t ∈ tiles, t.key = k) →
    k ∈ tiles.foldl
      (fun acc t => if t.key ∈ acc then acc else acc ++ [t.key]) acc := by
  induction tiles with
  | nil =>
    intro acc k hk
    rcases hk with hk | ⟨t, ht, _⟩
    · exact hk
    · cases ht
  | cons t ts ih =>
    intro acc k hk
    simp only [List.foldl_cons]
    apply ih
    by_cases hmem : t.key ∈ acc
    · rw [if_pos hmem]
      rcases hk with hk | ⟨t0, ht0, hkey⟩
      · exact Or.inl hk
      · rcases List.mem_cons.mp ht0 with rfl | hts
        · exact Or.inl (hkey ▸ hmem)
        · exact Or.inr ⟨t0, hts, hkey⟩
    · rw [if_neg hmem]
      rcases hk with hk | ⟨t0, ht0, hkey⟩
      · exact Or.inl (List.mem_append_left _ hk)
      · rcases List.mem_cons.mp ht0 with rfl | hts
        · exact Or.inl (List.mem_append_right _ (by simp [hkey]))
        · exact Or.inr ⟨t0, hts, hkey⟩

/-- Every key with a positive count occurs in the `Object.keys`
list. -/
lemma keysOf_complete (tiles : List Tile) (k : Key)
    (hpos : 0 < groupsOf tiles k) : k ∈ keysOf tiles := by
  unfold keysOf
  apply keysOf_aux
  right
  unfold groupsOf at hpos
  have hne : tiles.filter (fun t => t.key == k) ≠ [] := by
    intro hnil
    rw [hnil] at hpos
    exact absurd hpos (by simp)
  obtain ⟨t, htmem⟩ := List.exists_mem_of_ne_nil _ hne
  have hm := List.mem_filter.mp htmem
  exact ⟨t, hm.1, by simpa using hm.2⟩

/-! ### Payment arithmetic -/

lemma addAtN_length (l : List Int) (n : Nat) (d : Int) :
    (addAtN l n d).length = l.length := by
  induction l generalizing n with
  | nil => rfl
  | cons x xs ih =>
    cases n with
    | zero => rfl
    | succ m => simp [addAtN, ih]

lemma addAtN_sum (l : List Int) (n : Nat) (d : Int) (h : n < l.length) :
    (addAtN l n d).sum = l.sum + d := by
  induction l generalizing n with
  | nil => cases h
  | cons x xs ih =>
    cases n with
    | zero => simp [addAtN]; ring
    | succ m =>
      simp only [addAtN, List.sum_cons]
      rw [ih m (by simpa using h)]
      ring

lemma addAtI_length (l : List Int) (i : Int) (d : Int) :
    (addAtI l i d).length = l.length := by
  unfold addAtI
  split
  · rfl
  · exact addAtN_length ..

lemma addAtI_sum (l : List Int) (i : Int) (d : Int) (h0 : 0 ≤ i)
    (h : i.toNat < l.length) : (addAtI l i d).sum = l.sum + d := by
  unfold addAtI
  rw [if_neg (by omega)]
  exact addAtN_sum _ _ _ h

lemma addAtN_get?_self (l : List Int) (n : Nat) (d : Int) :
    (addAtN l n d).get? n = (l.get? n).map (fun x => x + d) := by
  induction l generalizing n with
  | nil => cases n <;> rfl
  | cons x xs ih =>
    cases n with
    | zero => rfl
    | succ m => simpa [addAtN] using ih m

lemma addAtN_get?_ne (l : List Int) (n : Nat) (d : Int) (m : Nat) (h : m ≠ n) :
    (addAtN l n d).get? m = l.get? m := by
  induction l generalizing n m with
  | nil => cases n <;> rfl
  | cons x xs ih =>
    cases n with
    | zero => cases m with
      | zero => exact absurd rfl h
      | succ k => rfl
    | succ n2 => cases m with
      | zero => rfl
      | succ k => simpa [addAtN] using ih n2 k (fun he => h (by omega))

lemma addAtI_get?_self (l : List Int) (i : Int) (d : Int) (h0 : 0 ≤ i) :
    (addAtI l i d).get? i.toNat = (l.get? i.toNat).map (fun x => x + d) := by
  unfold addAtI
  rw [if_neg (by omega)]
  exact addAtN_get?_self ..

lemma addAtI_get?_ne (l : List Int) (i : Int) (d : Int) (m : Nat)
    (h : m ≠ i.toNat) : (addAtI l i d).get? m = l.get? m := by
  unfold addAtI
  split
  · rfl
  · exact addAtN_get?_ne _ _ _ _ h

lemma lastFeeder_mem (ms : List Meld) (w f : Int)
    (h : lastFeeder ms w = some f) : ∃ m ∈ ms, m.fromPlayer = some f := by
  unfold lastFeeder at h
  cases hl : ms.getLast? with
  | none => rw [hl] at h; cases h
  | some lm =>
    rw [hl] at h
    dsimp only at h
    cases hfp : lm.fromPlayer with
    | none => rw [hfp] at h; cases h
    | some f2 =>
      rw [hfp] at h
      dsimp only at h
      split_ifs at h with hne
      · cases h
        exact ⟨lm, List.mem_of_mem_getLast? hl, hfp⟩

lemma baoDragon_mem (ms : List Meld) (w f : Int)
    (h : baoDragon ms w = some f) : ∃ m ∈ ms, m.fromPlayer = some f := by
  unfold baoDragon at h
  dsimp only at h
  split_ifs at h
  obtain ⟨m, hm, hfp⟩ := lastFeeder_mem _ _ _ h
  unfold dragonMeldsOf at hm
  exact ⟨m, (List.mem_filter.mp hm).1, hfp⟩

lemma baoWind_mem (ms : List Meld) (w f : Int)
    (h : baoWind ms w = some f) : ∃ m ∈ ms, m.fromPlayer = some f := by
  unfold baoWind at h
  dsimp only at h
  split_ifs at h
  obtain ⟨m, hm, hfp⟩ := lastFeeder_mem _ _ _ h
  exact ⟨m, (List.mem_filter.mp hm).1, hfp⟩

lemma baoFlush_mem (ms : List Meld) (w f : Int)
    (h : baoFlush ms w = some f) : ∃ m ∈ ms, m.fromPlayer = some f := by
  unfold baoFlush at h
  dsimp only at h
  split_ifs at h
  exact lastFeeder_mem _ _ _ h

lemma baoKong_mem (ms : List Meld) (w f : Int)
    (h : baoKong ms w = some f) : ∃ m ∈ ms, m.fromPlayer = some f := by
  unfold baoKong at h
  dsimp only at h
  split_ifs at h
  obtain ⟨m, hm, hfp⟩ := lastFeeder_mem _ _ _ h
  exact ⟨m, (List.mem_filter.mp hm).1, hfp⟩

/-- `checkBaoPai` returns `-1` or the `fromPlayer` of one of the
winner's melds. -/
lemma checkBaoPai_cases (hand : Hand) (w : Int) :
    checkBaoPai hand w = -1
    ∨ ∃ m ∈ hand.melds, m.fromPlayer = some (checkBaoPai hand w) := by
  unfold checkBaoPai
  split_ifs
  · exact Or.inl rfl
  · cases h1 : baoDragon hand.melds w with
    | some f => right; simpa [Option.orElse] using baoDragon_mem _ _ _ h1
    | none =>
      cases h2 : baoWind hand.melds w with
      | some f => right; simpa [Option.orElse, h1] using baoWind_mem _ _ _ h2
      | none =>
        cases h3 : baoFlush hand.melds w with
        | some f => right; simpa [Option.orElse, h1, h2] using baoFlush_mem _ _ _ h3
        | none =>
          cases h4 : baoKong hand.melds w with
          | some f => right; simpa [Option.orElse, h1, h2, h3] using baoKong_mem _ _ _ h4
          | none => left; simp [Option.orElse, h1, h2, h3, h4]

/-- The normal self-drawn payment loop preserves the delta sum and the
list length (each loser's debit is credited to the winner). -/
lemma payFold (wnr : Int) (pay : Nat → Int) (l : List Nat) :
    ∀ (ds : List Int), ds.length = 4 → 0 ≤ wnr → wnr.toNat < 4 →
    (∀ i ∈ l, i < 4) →
    ((l.foldl (fun ds (i : Nat) =>
        if (i : Int) = wnr then ds
        else addAtI (addAtI ds (i : Int) (-(pay i))) wnr (pay i)) ds).sum = ds.sum
    ∧ (l.foldl (fun ds (i : Nat) =>
        if (i : Int) = wnr then ds
        else addAtI (addAtI ds (i : Int) (-(pay i))) wnr (pay i)) ds).length = 4) := by
  induction l with
  | nil => intro ds h4 _ _ _; exact ⟨rfl, h4⟩
  | cons i l ih =>
    intro ds h4 hw0 hw4 hmem
    simp only [List.foldl_cons]
    by_cases hiw : (i : Int) = wnr
    · rw [if_pos hiw]
      exact ih ds h4 hw0 hw4 (fun j hj => hmem j (List.mem_cons_of_mem i hj))
    · rw [if_neg hiw]
      have hi4 : i < 4 := hmem i (List.mem_cons_self i l)
      have hlen1 : (addAtI ds (i : Int) (-(pay i))).length = 4 := by
        rw [addAtI_length]; exact h4
      have hlen2 : (addAtI (addAtI ds (i : Int) (-(pay i))) wnr (pay i)).length = 4 := by
        rw [addAtI_length]; exact hlen1
      have hsum1 : (addAtI ds (i : Int) (-(pay i))).sum = ds.sum + (-(pay i)) :=
        addAtI_sum _ _ _ (by omega) (by simpa [h4] using hi4)
      have hsum2 : (addAtI (addAtI ds (i : Int) (-(pay i))) wnr (pay i)).sum
          = ds.sum + (-(pay i)) + pay i := by
        rw [addAtI_sum _ _ _ hw0 (by rw [hlen1]; exact hw4), hsum1]
      obtain ⟨hs, hl⟩ := ih _ hlen2 hw0 hw4
        (fun j hj => hmem j (List.mem_cons_of_mem i hj))
      refine ⟨?_, hl⟩
      rw [hs, hsum2]
      ring

/-! ### Kong execution and hand-size repair -/

lemma get?_set_self (l : List α) (i : Nat) (a : α) (h : i < l.length) :
    (l.set i a).get? i = some a := by
  induction l generalizing i with
  | nil => cases h
  | cons x xs ih =>
    cases i with
    | zero => rfl
    | succ m => simpa [List.set] using ih m (by simpa using h)

lemma removeFirstByKey_pos (k : Key) (l : List Tile)
    (h : 0 < (l.filter (fun t => t.key == k)).length) :
    ∃ t l2, removeFirstByKey k l = (some t, l2)
      ∧ l2.length + 1 = l.length
      ∧ (l2.filter (fun t => t.key == k)).length + 1
        = (l.filter (fun t => t.key == k)).length := by
  induction l with
  | nil => simp at h
  | cons x xs ih =>
    by_cases hx : x.key == k
    · refine ⟨x, xs, ?_, by simp, ?_⟩
      · unfold removeFirstByKey; rw [if_pos hx]
      · simp only [List.filter_cons, hx, if_true, List.length_cons]
    · simp only [List.filter_cons, hx, Bool.false_eq_true, if_false] at h
      obtain ⟨t, l2, heq, hlen, hcnt⟩ := ih h
      refine ⟨t, x :: l2, ?_, by simpa using hlen, ?_⟩
      · unfold removeFirstByKey
        rw [if_neg (by simpa using hx), heq]
      · simp only [List.filter_cons, hx, Bool.false_eq_true, if_false]
        exact hcnt

lemma removeTileByKey_pos (h : Hand) (k : Key) (hp : 0 < h.countByKey k) :
    ∃ t h2, h.removeTileByKey k = (some t, h2)
      ∧ h2.concealed.length + 1 = h.concealed.length
      ∧ h2.countByKey k + 1 = h.countByKey k
      ∧ h2.melds = h.melds ∧ h2.flowers = h.flowers ∧ h2.discards = h.discards := by
  obtain ⟨t, l2, heq, hlen, hcnt⟩ := removeFirstByKey_pos k h.concealed hp
  refine ⟨t, { h with concealed := l2 }, ?_, hlen, hcnt, rfl, rfl, rfl⟩
  unfold Hand.removeTileByKey
  rw [heq]

lemma doKongConcealed_spec (h : Hand) (k : Key) (hc : h.countByKey k = 4) :
    (h.doKongConcealed k).concealed.length + 4 = h.concealed.length
    ∧ (h.doKongConcealed k).melds.length = h.melds.length + 1
    ∧ (h.doKongConcealed k).discards = h.discards
    ∧ (h.doKongConcealed k).flowers = h.flowers := by
  obtain ⟨t1, h1, e1, l1, c1, m1, f1, d1⟩ := removeTileByKey_pos h k (by omega)
  obtain ⟨t2, h2, e2, l2, c2, m2, f2, d2⟩ := removeTileByKey_pos h1 k (by omega)
  obtain ⟨t3, h3, e3, l3, c3, m3, f3, d3⟩ := removeTileByKey_pos h2 k (by omega)
  obtain ⟨t4, h4, e4, l4, c4, m4, f4, d4⟩ := removeTileByKey_pos h3 k (by omega)
  unfold Hand.doKongConcealed
  rw [e1]; dsimp only
  rw [e2]; dsimp only
  rw [e3]; dsimp only
  rw [e4]; dsimp only
  refine ⟨by omega, ?_, by rw [d4, d3, d2, d1], by rw [f4, f3, f2, f1]⟩
  rw [List.length_append, m4, m3, m2, m1]
  rfl

lemma doKongAdded_spec (h : Hand) (k : Key) (i : Nat)
    (hfind : findPungIdx k h.melds = some i) (hcnt : 0 < h.countByKey k) :
    (h.doKongAdded k).concealed.length + 1 = h.concealed.length
    ∧ (h.doKongAdded k).melds.length = h.melds.length
    ∧ (h.doKongAdded k).discards = h.discards
    ∧ (h.doKongAdded k).flowers = h.flowers := by
  obtain ⟨t1, h1, e1, l1, c1, m1, f1, d1⟩ := removeTileByKey_pos h k hcnt
  unfold Hand.doKongAdded
  rw [hfind]
  dsimp only
  rw [e1]
  dsimp only
  exact ⟨l1, by rw [List.length_set, m1], d1, f1⟩

lemma drawDead_empty (w : Wall) (h : w.deadWall = []) :
    w.drawFromDeadWall = (none, w) := by
  unfold Wall.drawFromDeadWall
  rw [h]
  rfl

lemma findTarget_self (a m : Nat) (h : a % 3 = m) : findTarget a m = a := by
  cases a with
  | zero => rfl
  | succ t => unfold findTarget; rw [if_pos h]

lemma findTarget_step (t m : Nat) (h : (t + 1) % 3 ≠ m) :
    findTarget (t + 1) m = findTarget t m := by
  conv_lhs => unfold findTarget
  rw [if_neg h]

lemma findTarget_mod1 (a : Nat) (h : a % 3 = 1) : findTarget a 2 = a - 2 := by
  match a, h with
  | 0, h => exact absurd h (by decide)
  | 1, _ => rfl
  | 2, h => exact absurd h (by decide)
  | (r + 3), h =>
    have e1 : findTarget (r + 3) 2 = findTarget (r + 2) 2 :=
      findTarget_step (r + 2) 2 (by omega)
    have e2 : findTarget (r + 2) 2 = findTarget (r + 1) 2 :=
      findTarget_step (r + 1) 2 (by omega)
    have e3 : findTarget (r + 1) 2 = r + 1 := findTarget_self (r + 1) 2 (by omega)
    rw [e1, e2, e3]
    omega

lemma popExcessN_step (n : Nat) (h : Hand) (t : Tile)
    (ht : h.concealed.getLast? = some t) :
    popExcessN (n + 1) h
      = popExcessN n ({ h with
          concealed := h.concealed.dropLast,
          discards := h.discards ++ [t] }) := by
  conv_lhs => unfold popExcessN
  rw [ht]

lemma popExcessN_zero (h : Hand) : popExcessN 0 h = h := rfl

lemma popExcessN_one_spec (h : Hand) (hne : h.concealed ≠ []) :
    (popExcessN 1 h).concealed.length + 1 = h.concealed.length
    ∧ (popExcessN 1 h).discards.length = h.discards.length + 1
    ∧ (popExcessN 1 h).melds = h.melds
    ∧ (popExcessN 1 h).flowers = h.flowers := by
  obtain ⟨t, ht⟩ := Option.isSome_iff_exists.mp
    (by rwa [List.getLast?_isSome] : (h.concealed.getLast?).isSome = true)
  rw [popExcessN_step 0 h t ht, popExcessN_zero]
  dsimp only
  have hpos : 0 < h.concealed.length := List.length_pos.mpr hne
  refine ⟨?_, ?_, rfl, rfl⟩
  · rw [List.length_dropLast]; omega
  · rw [List.length_append]; rfl

lemma popExcessN_two (h : Hand) (hlen : 2 ≤ h.concealed.length) :
    (popExcessN 2 h).concealed.length = h.concealed.length - 2
    ∧ (popExcessN 2 h).discards.length = h.discards.length + 2
    ∧ (popExcessN 2 h).melds = h.melds
    ∧ (popExcessN 2 h).flowers = h.flowers := by
  have hne : h.concealed ≠ [] := by
    intro hc; rw [hc] at hlen; simp at hlen
  obtain ⟨t, ht⟩ := Option.isSome_iff_exists.mp
    (by rwa [List.getLast?_isSome] : (h.concealed.getLast?).isSome = true)
  have hstep : popExcessN 2 h = popExcessN 1 (popExcessN 1 h) := by
    rw [popExcessN_step 1 h t ht]
    congr 1
    rw [popExcessN_step 0 h t ht, popExcessN_zero]
  obtain ⟨a1, b1, c1, d1⟩ := popExcessN_one_spec h hne
  have hne2 : (popExcessN 1 h).concealed ≠ [] := by
    intro hc
    have := congrArg List.length hc
    simp only [List.length_nil] at this
    omega
  obtain ⟨a2, b2, c2, d2⟩ := popExcessN_one_spec _ hne2
  rw [hstep]
  exact ⟨by omega, by omega, by rw [c2, c1], by rw [d2, d1]⟩

/-- The repair branch of `_validateHandSize` taken after a kong with
no replacement: concealed ≡ 1 (mod 3) and at least 3 tiles means two
tiles are popped to the discards. -/
lemma validatePlayer_pop (w : Wall) (hands : List Hand) (p : Nat) (h : Hand)
    (hget : hands.get? p = some h) (hmod : h.concealed.length % 3 = 1)
    (hge : 3 ≤ h.concealed.length) :
    validatePlayer w hands p Phase.before_discard
      = some (w, hands.set p (popExcessN 2 h)) := by
  unfold validatePlayer
  rw [hget]
  dsimp only
  rw [if_pos rfl]
  rw [if_neg (show ¬(h.concealed.length % 3 = 2) from by omega)]
  rw [findTarget_mod1 _ hmod]
  rw [if_neg (show ¬(h.concealed.length - 2 = 0) from by omega)]
  rw [if_neg (show ¬(h.concealed.length < h.concealed.length - 2) from by omega)]
  rw [if_pos (show h.concealed.length - 2 < h.concealed.length from by omega)]
  have h2 : h.concealed.length - (h.concealed.length - 2) = 2 := by omega
  rw [h2]


/-! ### Deal round-robin -/

lemma posOf_cons_self (a : Nat) (s : List Nat) :
    posOf (a :: s) a = 0 :: (posOf s a).map (fun o => o + 1) := by
  simp only [posOf]
  rw [if_pos trivial]

lemma posOf_cons_ne (a j : Nat) (h : a ≠ j) (s : List Nat) :
    posOf (a :: s) j = (posOf s j).map (fun o => o + 1) := by
  simp only [posOf]
  rw [if_neg h]

lemma dealFold_get? (s : List Nat) : ∀ (hs : List (List (Option Tile)))
    (w : Wall) (j : Nat), w.drawIndex + s.length ≤ w.tiles.length →
    j < hs.length →
    (s.foldl (fun acc idx =>
        let (t, w2) := acc.2.draw
        (pushTo acc.1 idx t, w2)) (hs, w)).1.get? j
      = some (hs.getD j []
          ++ (posOf s j).map (fun o => w.tiles.get? (w.drawIndex + o))) := by
  induction s with
  | nil =>
    intro hs w j _hw hj
    simp only [List.foldl_nil, posOf, List.map_nil, List.append_nil]
    cases hq : hs.get? j with
    | none =>
      exact absurd (List.get?_eq_none.mp hq) (by omega)
    | some v =>
      rw [List.getD_eq_get?, hq]
      rfl
  | cons a s ih =>
    intro hs w j hw hj
    have hnle : ¬(w.tiles.length ≤ w.drawIndex) := by
      simp only [List.length_cons] at hw
      omega
    have hdraw : w.draw = (w.tiles.get? w.drawIndex,
        { w with drawIndex := w.drawIndex + 1 }) := by
      unfold Wall.draw
      rw [if_neg hnle]
    rw [List.foldl_cons]
    dsimp only
    rw [hdraw]
    dsimp only
    have hih := ih (pushTo hs a (w.tiles.get? w.drawIndex))
      { w with drawIndex := w.drawIndex + 1 } j
      (by simp only [List.length_cons] at hw; dsimp only; omega)
      (by unfold pushTo; rw [List.length_set]; exact hj)
    rw [hih]
    dsimp only
    have hmap : ∀ (l : List Nat), ((l.map (fun o => o + 1)).map
        (fun o => w.tiles.get? (w.drawIndex + o)))
        = l.map (fun o => w.tiles.get? (w.drawIndex + 1 + o)) := by
      intro l
      rw [List.map_map]
      apply List.map_congr_left
      intro o _
      simp only [Function.comp]
      congr 1
      omega
    by_cases haj : a = j
    · subst haj
      have hgd : (pushTo hs a (w.tiles.get? w.drawIndex)).getD a []
          = hs.getD a [] ++ [w.tiles.get? w.drawIndex] := by
        unfold pushTo
        rw [List.getD_eq_get?, get?_set_self _ _ _ hj]
        rfl
      rw [hgd, posOf_cons_self]
      simp only [List.map_cons, hmap]
      rw [List.append_assoc]
      simp only [List.singleton_append, Nat.add_zero]
    · have hgd : (pushTo hs a (w.tiles.get? w.drawIndex)).getD j []
          = hs.getD j [] := by
        unfold pushTo
        rw [List.getD_eq_get?, List.get?_set_ne _ _ haj, ← List.getD_eq_get?]
      rw [hgd, posOf_cons_ne a j haj, hmap]

lemma posOf_dealSchedule (d p : Nat) (hd : d < 4) (hp : p < 4) :
    posOf (dealSchedule d) ((d + p) % 4)
      = dealPositions p ++ (if p = 0 then [52] else []) := by
  interval_cases d <;> interval_cases p <;> rfl

/-! ## Concrete fixtures (used by witnesses and counterexamples) -/

/-- A plain game value in the menu state with inert oracles; concrete
scenarios below adjust single fields. -/
def fixtureGame : Game :=
  { wall := { tiles := [], deadWall := [], drawIndex := 0 },
    hands := [Hand.mkEmpty 0, Hand.mkEmpty 1, Hand.mkEmpty 2, Hand.mkEmpty 3],
    state := GameState.menu,
    currentPlayer := 0, dealerIndex := 0, roundWind := 1, roundNumber := 0,
    seatWinds := [1, 2, 3, 4], lastDiscard := none, lastDiscardPlayer := -1,
    turnCount := 0, winner := -1, winInfo := none, minFan := 1,
    pendingClaims := [], scores := [10000, 10000, 10000, 10000],
    totalRounds := 0, maxRounds := 24, paymentInfo := none,
    diceResults := [0, 0, 0], selfDrawnFlag := false, isKongDrawFlag := false,
    drawnTile := none,
    aiDecideClaim := fun _ _ _ => none,
    aiChooseDiscard := fun _ => none,
    aiChooseChowCombo := fun _ => none }

/-- A 14-tile winning hand: circles 111 222 333 444 55. -/
def handC2 : Hand :=
  { playerIndex := 0,
    concealed :=
      [⟨Suit.tung, 1, 36⟩, ⟨Suit.tung, 1, 37⟩, ⟨Suit.tung, 1, 38⟩,
       ⟨Suit.tung, 2, 40⟩, ⟨Suit.tung, 2, 41⟩, ⟨Suit.tung, 2, 42⟩,
       ⟨Suit.tung, 3, 44⟩, ⟨Suit.tung, 3, 45⟩, ⟨Suit.tung, 3, 46⟩,
       ⟨Suit.tung, 4, 48⟩, ⟨Suit.tung, 4, 49⟩, ⟨Suit.tung, 4, 50⟩,
       ⟨Suit.tung, 5, 52⟩, ⟨Suit.tung, 5, 53⟩],
    melds := [], flowers := [], discards := [] }

/-- A meld-free 14-tile hand of seven circle pairs 11 22 33 44 55 66
77, which also admits the standard decomposition
123 123 456 456 + 77. -/
def handC10 : Hand :=
  { playerIndex := 0,
    concealed :=
      [⟨Suit.tung, 1, 36⟩, ⟨Suit.tung, 1, 37⟩, ⟨Suit.tung, 2, 40⟩, ⟨Suit.tung, 2, 41⟩,
       ⟨Suit.tung, 3, 44⟩, ⟨Suit.tung, 3, 45⟩, ⟨Suit.tung, 4, 48⟩, ⟨Suit.tung, 4, 49⟩,
       ⟨Suit.tung, 5, 52⟩, ⟨Suit.tung, 5, 53⟩, ⟨Suit.tung, 6, 56⟩, ⟨Suit.tung, 6, 57⟩,
       ⟨Suit.tung, 7, 60⟩, ⟨Suit.tung, 7, 61⟩],
    melds := [], flowers := [], discards := [] }

def ctxC10 : Context :=
  { seatWind := 2, roundWind := 1, selfDrawn := false, isLastTile := false,
    isKongDraw := false, minFan := 1 }

/-- A meld-free seven-pairs hand over three suits (no flush) holding
all 8 bonus tiles. -/
def handC3 : Hand :=
  { playerIndex := 0,
    concealed :=
      [⟨Suit.wan, 1, 0⟩, ⟨Suit.wan, 1, 1⟩, ⟨Suit.wan, 2, 4⟩, ⟨Suit.wan, 2, 5⟩,
       ⟨Suit.tung, 1, 36⟩, ⟨Suit.tung, 1, 37⟩, ⟨Suit.tung, 2, 40⟩, ⟨Suit.tung, 2, 41⟩,
       ⟨Suit.tung, 3, 44⟩, ⟨Suit.tung, 3, 45⟩, ⟨Suit.sok, 1, 72⟩, ⟨Suit.sok, 1, 73⟩,
       ⟨Suit.sok, 2, 76⟩, ⟨Suit.sok, 2, 77⟩],
    melds := [],
    flowers :=
      [⟨Suit.flower, 1, 136⟩, ⟨Suit.flower, 2, 137⟩, ⟨Suit.flower, 3, 138⟩,
       ⟨Suit.flower, 4, 139⟩, ⟨Suit.season, 1, 140⟩, ⟨Suit.season, 2, 141⟩,
       ⟨Suit.season, 3, 142⟩, ⟨Suit.season, 4, 143⟩],
    discards := [] }

def ctxC3 : Context :=
  { seatWind := 2, roundWind := 1, selfDrawn := false, isLastTile := false,
    isKongDraw := false, minFan := 1 }

/-- A hand with three exposed dragon pungs, the last fed by player 3. -/
def handC5 : Hand :=
  { playerIndex := 1,
    concealed :=
      [⟨Suit.wan, 2, 4⟩, ⟨Suit.wan, 3, 8⟩, ⟨Suit.wan, 4, 12⟩,
       ⟨Suit.wan, 7, 24⟩, ⟨Suit.wan, 7, 25⟩],
    melds :=
      [{ type := MeldType.pung,
         tiles := [⟨Suit.dragon, 1, 124⟩, ⟨Suit.dragon, 1, 125⟩, ⟨Suit.dragon, 1, 126⟩],
         fromPlayer := some 0 },
       { type := MeldType.pung,
         tiles := [⟨Suit.dragon, 2, 128⟩, ⟨Suit.dragon, 2, 129⟩, ⟨Suit.dragon, 2, 130⟩],
         fromPlayer := some 2 },
       { type := MeldType.pung,
         tiles := [⟨Suit.dragon, 3, 132⟩, ⟨Suit.dragon, 3, 133⟩, ⟨Suit.dragon, 3, 134⟩],
         fromPlayer := some 3 }],
    flowers := [], discards := [] }

/-- A completed self-drawn round won by player 1 with `handC5`,
totalFan 8 (base points 256). -/
def gameC5 : Game :=
  { fixtureGame with
    state := GameState.round_end,
    winner := 1,
    dealerIndex := 0,
    winInfo := some { scoring := ⟨8, []⟩, selfDrawn := true, fromPlayer := none },
    hands := [Hand.mkEmpty 0, handC5, Hand.mkEmpty 2, Hand.mkEmpty 3] }

/-! ## Claim theorems -/


/-- Player 0's concealed tiles while waiting to claim the winning
circle-5: circles 111 222 333 444 5. -/
def handC1p0 : Hand :=
  { playerIndex := 0,
    concealed :=
      [⟨Suit.tung, 1, 36⟩, ⟨Suit.tung, 1, 37⟩, ⟨Suit.tung, 1, 38⟩,
       ⟨Suit.tung, 2, 40⟩, ⟨Suit.tung, 2, 41⟩, ⟨Suit.tung, 2, 42⟩,
       ⟨Suit.tung, 3, 44⟩, ⟨Suit.tung, 3, 45⟩, ⟨Suit.tung, 3, 46⟩,
       ⟨Suit.tung, 4, 48⟩, ⟨Suit.tung, 4, 49⟩, ⟨Suit.tung, 4, 50⟩,
       ⟨Suit.tung, 5, 52⟩],
    melds := [], flowers := [], discards := [] }

/-- Player 1 (the discarder): characters 1–9 and the four winds, with
the circle-5 just discarded. -/
def handC1p1 : Hand :=
  { playerIndex := 1,
    concealed :=
      [⟨Suit.wan, 1, 0⟩, ⟨Suit.wan, 2, 4⟩, ⟨Suit.wan, 3, 8⟩,
       ⟨Suit.wan, 4, 12⟩, ⟨Suit.wan, 5, 16⟩, ⟨Suit.wan, 6, 20⟩,
       ⟨Suit.wan, 7, 24⟩, ⟨Suit.wan, 8, 28⟩, ⟨Suit.wan, 9, 32⟩,
       ⟨Suit.wind, 1, 108⟩, ⟨Suit.wind, 2, 112⟩, ⟨Suit.wind, 3, 116⟩,
       ⟨Suit.wind, 4, 120⟩],
    melds := [], flowers := [], discards := [⟨Suit.tung, 5, 53⟩] }

def handC1p2 : Hand :=
  { playerIndex := 2,
    concealed :=
      [⟨Suit.sok, 1, 72⟩, ⟨Suit.sok, 2, 76⟩, ⟨Suit.sok, 3, 80⟩,
       ⟨Suit.sok, 4, 84⟩, ⟨Suit.sok, 5, 88⟩, ⟨Suit.sok, 6, 92⟩,
       ⟨Suit.sok, 7, 96⟩, ⟨Suit.sok, 8, 100⟩, ⟨Suit.sok, 9, 104⟩,
       ⟨Suit.dragon, 1, 124⟩, ⟨Suit.dragon, 2, 128⟩, ⟨Suit.dragon, 3, 132⟩,
       ⟨Suit.tung, 6, 56⟩],
    melds := [], flowers := [], discards := [] }

def handC1p3 : Hand :=
  { playerIndex := 3,
    concealed :=
      [⟨Suit.wan, 1, 1⟩, ⟨Suit.wan, 2, 5⟩, ⟨Suit.wan, 3, 9⟩,
       ⟨Suit.wan, 4, 13⟩, ⟨Suit.wan, 5, 17⟩, ⟨Suit.wan, 6, 21⟩,
       ⟨Suit.wan, 7, 25⟩, ⟨Suit.wan, 8, 29⟩, ⟨Suit.wan, 9, 33⟩,
       ⟨Suit.wind, 1, 109⟩, ⟨Suit.wind, 2, 113⟩, ⟨Suit.wind, 3, 117⟩,
       ⟨Suit.wind, 4, 121⟩],
    melds := [], flowers := [], discards := [] }

/-- The 53 tile ids held in the four hands and the discard pile of
`gC1`. -/
def usedIdsC1 : List Nat :=
  [36, 37, 38, 40, 41, 42, 44, 45, 46, 48, 49, 50, 52,
   0, 4, 8, 12, 16, 20, 24, 28, 32, 108, 112, 116, 120, 53,
   72, 76, 80, 84, 88, 92, 96, 100, 104, 124, 128, 132, 56,
   1, 5, 9, 13, 17, 21, 25, 29, 33, 109, 113, 117, 121]

/-- The 91 tiles still in the wall of `gC1`. -/
def wallTilesC1 : List Tile :=
  createAllTiles.filter (fun t => !(usedIdsC1.contains t.id))

/-- A mid-round claiming state accounting for all 144 tiles: player 1
has just discarded the circle-5 that completes player 0's hand, 77
live-wall tiles and a 14-tile dead wall remain. -/
def gC1 : Game :=
  { fixtureGame with
    wall := { tiles := wallTilesC1.take 77, deadWall := wallTilesC1.drop 77,
              drawIndex := 0 },
    hands := [handC1p0, handC1p1, handC1p2, handC1p3],
    state := GameState.claiming,
    currentPlayer := 0,
    lastDiscard := some ⟨Suit.tung, 5, 53⟩,
    lastDiscardPlayer := 1,
    turnCount := 5 }

/-- A 14-tile concealed hand holding four circle-1s, ready to declare a
concealed kong. -/
def handC6 : Hand :=
  { playerIndex := 0,
    concealed :=
      [⟨Suit.tung, 1, 36⟩, ⟨Suit.tung, 1, 37⟩, ⟨Suit.tung, 1, 38⟩, ⟨Suit.tung, 1, 39⟩,
       ⟨Suit.tung, 2, 40⟩, ⟨Suit.tung, 2, 41⟩, ⟨Suit.tung, 2, 42⟩,
       ⟨Suit.tung, 3, 44⟩, ⟨Suit.tung, 3, 45⟩, ⟨Suit.tung, 3, 46⟩,
       ⟨Suit.tung, 4, 48⟩, ⟨Suit.tung, 4, 49⟩, ⟨Suit.tung, 4, 50⟩,
       ⟨Suit.tung, 5, 52⟩],
    melds := [], flowers := [], discards := [] }

/-- Player 0 about to declare the concealed kong while the dead wall is
empty and three live tiles remain. -/
def gameC6 : Game :=
  { fixtureGame with
    wall := { tiles := [⟨Suit.wan, 5, 16⟩, ⟨Suit.wan, 6, 20⟩, ⟨Suit.wan, 7, 24⟩],
              deadWall := [], drawIndex := 0 },
    hands := [handC6, Hand.mkEmpty 1, Hand.mkEmpty 2, Hand.mkEmpty 3],
    state := GameState.player_turn }

/-- C7: for every dice result of three values each in 1..6,
`confirmDice` sets `dealerIndex` to `(sum - 1) % 4` (and `startRound`
leaves it untouched); in particular sum 7 and sum 3 give dealer index
2 and sum 18 gives dealer index 1. -/
theorem C7_confirmDice_dealer (g : Game) (shuffled : List Tile)
    (d1 d2 d3 : Nat) (g2 : Game)
    (hd : g.diceResults = [d1, d2, d3])
    (_hr1 : 1 ≤ d1 ∧ d1 ≤ 6) (_hr2 : 1 ≤ d2 ∧ d2 ≤ 6) (_hr3 : 1 ≤ d3 ∧ d3 ≤ 6)
    (hc : confirmDice g shuffled = some g2) :
    g2.dealerIndex = (d1 + d2 + d3 - 1) % 4
    ∧ (d1 + d2 + d3 = 7 → g2.dealerIndex = 2)
    ∧ (d1 + d2 + d3 = 3 → g2.dealerIndex = 2)
    ∧ (d1 + d2 + d3 = 18 → g2.dealerIndex = 1) := by
  unfold confirmDice at hc
  have hD := startRound_dealerIndex _ _ _ hc
  rw [hd] at hD
  simp only [List.sum_cons, List.sum_nil] at hD
  have hsum : g2.dealerIndex = (d1 + d2 + d3 - 1) % 4 := by
    rw [hD]; ring_nf
  refine ⟨hsum, ?_, ?_, ?_⟩ <;> intro hs <;> rw [hsum, hs]

/-- C8: outside the expected state, `playerDiscard` and `playerDraw`
return the failure indicator `false` and leave the game unchanged
(both are total functions, so neither crashes). -/
theorem C8_state_guards (g : Game) (t : Tile) :
    (g.state ≠ GameState.player_discard → playerDiscard g t = some (false, g))
    ∧ (g.state ≠ GameState.player_turn → playerDraw g = some (false, g)) := by
  constructor
  · intro h; unfold playerDiscard; rw [if_pos h]
  · intro h; unfold playerDraw; rw [if_pos h]

/-- C2: whenever `canWin()` is true, `getWinDecomposition()` is
non-null; and a standard decomposition carries exactly the hand's
melds and reassembles the concealed multiset: for every key, the pair
plus the sets plus the meld tiles count exactly the tiles of
`concealed ++ meld tiles`. -/
theorem C2_decomposition_sound (h : Hand) (hw : h.canWin = true) :
    (h.getWinDecomposition).isSome = true
    ∧ (∀ p ss ms, h.getWinDecomposition = some (Decomp.standard p ss ms) →
        ms = h.melds
        ∧ ∀ k, pairCount (some p) k + setsCount ss k
            + groupsOf (ms.flatMap (fun m => m.tiles)) k
          = groupsOf (h.concealed ++ ms.flatMap (fun m => m.tiles)) k) := by
  constructor
  · unfold Hand.canWin at hw
    simp only [Bool.or_eq_true, Bool.and_eq_true, beq_iff_eq] at hw
    unfold Hand.getWinDecomposition
    by_cases c1 : h.melds.length = 0 ∧ h.concealed.length = 14
        ∧ checkSevenPairs h.concealed = true
    · rw [if_pos c1]; rfl
    · rw [if_neg c1]
      by_cases c2 : h.melds.length = 0 ∧ h.concealed.length = 14
          ∧ checkThirteenOrphans h.concealed = true
      · rw [if_pos c2]; rfl
      · rw [if_neg c2]
        have hstd : checkStandardWin h.concealed = true := by
          rcases hw with (hstd | h7) | h13
          · exact hstd
          · exact absurd ⟨h7.1.1, h7.1.2, h7.2⟩ c1
          · exact absurd ⟨h13.1.1, h13.1.2, h13.2⟩ c2
        have hdec : (decGo (winFuel h.concealed) (groupsOf h.concealed)
            (keysOf h.concealed) none []).isSome = true := by
          rw [isSome_decGo_eq_tryGo]
          exact hstd
        cases hd : decGo (winFuel h.concealed) (groupsOf h.concealed)
            (keysOf h.concealed) none [] with
        | none => rw [hd] at hdec; cases hdec
        | some pr => obtain ⟨p2, ss2⟩ := pr; rfl
  · intro p ss ms heq
    unfold Hand.getWinDecomposition at heq
    split_ifs at heq with c1 c2
    · simp at heq
    · simp at heq
    · cases hd : decGo (winFuel h.concealed) (groupsOf h.concealed)
          (keysOf h.concealed) none [] with
      | none => rw [hd] at heq; cases heq
      | some pr =>
        obtain ⟨p2, ss2⟩ := pr
        rw [hd] at heq
        simp only [Option.some.injEq, Decomp.standard.injEq] at heq
        obtain ⟨hp, hss, hms⟩ := heq
        subst hms
        rw [hp, hss] at hd
        refine ⟨rfl, fun k => ?_⟩
        have hsound := decGo_sound (winFuel h.concealed) (groupsOf h.concealed)
          (keysOf h.concealed) none [] p ss hd
          (fun j hj => keysOf_complete _ _ hj) k
        rw [groupsOf_append]
        simp only [pairCount_none, setsCount_nil] at hsound
        omega

/-- Witness for C2: a concrete winning hand (four circle pungs plus a
pair) applied to the theorem. -/
theorem C2_witness :
    (handC2.canWin = true) ∧ (handC2.getWinDecomposition).isSome = true :=
  ⟨by decide, (C2_decomposition_sound handC2 (by decide)).1⟩

lemma sumFan_append (a b : List (RuleName × Nat)) :
    sumFan (a ++ b) = sumFan a + sumFan b := by
  simp [sumFan]

/-- C10: a meld-free 14-tile hand of exactly 7 pairs always gets the
`seven_pairs` special decomposition (the check precedes the standard
search), so `Scoring.calculate` scores it through the seven-pairs
branch: the breakdown starts with the 4-fan seven-pairs entry and the
total is 4 plus flush/self-drawn additions (13 for all-honour pairs),
capped at 13 — never the standard accumulation. -/
theorem C10_seven_pairs_priority (h : Hand) (ctx : Context)
    (hm : h.melds = []) (hl : h.concealed.length = 14)
    (h7 : checkSevenPairs h.concealed = true) :
    h.getWinDecomposition = some (Decomp.sevenPairs h.concealed)
    ∧ (calculate h ctx).breakdown.head? = some (RuleName.sevenPairsRule, 4)
    ∧ (calculate h ctx).totalFan =
      (if h.concealed.all (fun t => t.isHonour) then maxFan
       else min (4 + sumFan (checkFlushEntries h.concealed h.melds)
         + (if ctx.selfDrawn then 1 else 0)) maxFan) := by
  have hdec : h.getWinDecomposition = some (Decomp.sevenPairs h.concealed) := by
    unfold Hand.getWinDecomposition
    rw [if_pos ⟨by rw [hm]; rfl, hl, h7⟩]
  refine ⟨hdec, ?_, ?_⟩
  · unfold calculate
    rw [hdec]
    by_cases hall : h.concealed.all (fun t => t.isHonour) = true
    · simp [hall]
    · simp only [Bool.not_eq_true] at hall
      simp [hall]
  · unfold calculate
    rw [hdec]
    by_cases hall : h.concealed.all (fun t => t.isHonour) = true
    · simp [hall]
    · simp only [Bool.not_eq_true] at hall
      simp only [hall, Bool.false_eq_true, if_false]
      rw [sumFan_append, sumFan_append]
      by_cases hsd : ctx.selfDrawn = true
      · simp [hsd, sumFan]
      · simp only [Bool.not_eq_true] at hsd
        simp [hsd, sumFan]

lemma le_sumFan_of_mem (l : List (RuleName × Nat)) (r : RuleName) (n : Nat)
    (hmem : (r, n) ∈ l) : n ≤ sumFan l := by
  induction l with
  | nil => cases hmem
  | cons e es ih =>
    rcases List.mem_cons.mp hmem with rfl | htl
    · simp [sumFan]
    · have := ih htl
      simp only [sumFan, List.map_cons, List.sum_cons]
      unfold sumFan at this
      omega

lemma sevenPairs_decomp_inv (h : Hand) (ts : List Tile)
    (heq : h.getWinDecomposition = some (Decomp.sevenPairs ts)) :
    ts = h.concealed ∧ h.melds.length = 0 := by
  unfold Hand.getWinDecomposition at heq
  split_ifs at heq with c1 c2
  · simp only [Option.some.injEq, Decomp.sevenPairs.injEq] at heq
    exact ⟨heq.symm, c1.1⟩
  · simp at heq
  · cases hd : decGo (winFuel h.concealed) (groupsOf h.concealed)
        (keysOf h.concealed) none [] with
    | none => rw [hd] at heq; cases heq
    | some pr => obtain ⟨p2, ss2⟩ := pr; rw [hd] at heq; simp at heq

/-- C3 (amended): `Scoring.calculate` never exceeds 13 fan, and
thirteen orphans, all-honours, big four winds (a standard
decomposition with four wind pung-type sets), nine gates, and a
standard-decomposition hand holding all 8 bonus tiles score exactly
13.  (Unlike the claim as stated, a seven-pairs hand holding all 8
bonus tiles does not score 13 — see the counterexample.) -/
theorem C3_fan_bounds (h : Hand) (ctx : Context) :
    (calculate h ctx).totalFan ≤ maxFan
    ∧ (∀ ts, h.getWinDecomposition = some (Decomp.thirteenOrphans ts) →
        (calculate h ctx).totalFan = maxFan)
    ∧ ((h.getWinDecomposition).isSome = true →
        (h.concealed ++ h.melds.flatMap (fun m => m.tiles)).all
          (fun t => t.isHonour) = true →
        (calculate h ctx).totalFan = maxFan)
    ∧ (∀ p ss ms, h.getWinDecomposition = some (Decomp.standard p ss ms) →
        windPungCountOf (ss ++ h.melds.map meldToSetSpec) = 4 →
        (calculate h ctx).totalFan = maxFan)
    ∧ (∀ p ss ms, h.getWinDecomposition = some (Decomp.standard p ss ms) →
        nineGatesCond h (h.concealed ++ h.melds.flatMap (fun m => m.tiles)) = true →
        (calculate h ctx).totalFan = maxFan)
    ∧ (∀ p ss ms, h.getWinDecomposition = some (Decomp.standard p ss ms) →
        h.flowers.length = 8 →
        (calculate h ctx).totalFan = maxFan) := by
  refine ⟨?_, ?_, ?_, ?_, ?_, ?_⟩
  · -- (a) the cap
    unfold calculate
    cases hd : h.getWinDecomposition with
    | none => simp
    | some d =>
      cases d with
      | thirteenOrphans ts => simp
      | sevenPairs ts =>
        by_cases hall : ts.all (fun t => t.isHonour) = true
        · simp [hall]
        · simp only [Bool.not_eq_true] at hall
          simp [hall, Nat.min_le_right]
      | standard p ss ms =>
        by_cases hall : (h.concealed ++ h.melds.flatMap (fun m => m.tiles)).all
            (fun t => t.isHonour) = true
        · simp [hall]
        · simp only [Bool.not_eq_true] at hall
          by_cases h9 : nineGatesCond h
              (h.concealed ++ h.melds.flatMap (fun m => m.tiles)) = true
          · simp [hall, h9]
          · simp only [Bool.not_eq_true] at h9
            simp [hall, h9, Nat.min_le_right]
  · -- (b) thirteen orphans
    intro ts heq
    unfold calculate
    rw [heq]
  · -- (c) all honours
    intro hsome hall
    unfold calculate
    cases hd : h.getWinDecomposition with
    | none => rw [hd] at hsome; cases hsome
    | some d =>
      cases d with
      | thirteenOrphans ts => rfl
      | sevenPairs ts =>
        obtain ⟨hts, _⟩ := sevenPairs_decomp_inv h ts hd
        subst hts
        have hcall : h.concealed.all (fun t => t.isHonour) = true := by
          rw [List.all_append, Bool.and_eq_true] at hall
          exact hall.1
        simp [hcall]
      | standard p ss ms => simp [hall]
  · -- (d) big four winds
    intro p ss ms heq hwind
    unfold calculate
    rw [heq]
    by_cases hall : (h.concealed ++ h.melds.flatMap (fun m => m.tiles)).all
        (fun t => t.isHonour) = true
    · simp [hall]
    · simp only [Bool.not_eq_true] at hall
      by_cases h9 : nineGatesCond h
          (h.concealed ++ h.melds.flatMap (fun m => m.tiles)) = true
      · simp [hall, h9]
      · simp only [Bool.not_eq_true] at h9
        simp only [hall, Bool.false_eq_true, if_false, h9]
        have hmem : (RuleName.bigFourWinds, maxFan) ∈ standardBreakdown h ctx p ss := by
          unfold standardBreakdown
          simp [hwind]
        have hle := le_sumFan_of_mem _ _ _ hmem
        simp [Nat.min_eq_right hle]
  · -- (e) nine gates
    intro p ss ms heq h9
    unfold calculate
    rw [heq]
    by_cases hall : (h.concealed ++ h.melds.flatMap (fun m => m.tiles)).all
        (fun t => t.isHonour) = true
    · simp [hall]
    · simp only [Bool.not_eq_true] at hall
      simp [hall, h9]
  · -- (f) all 8 bonus tiles, standard decomposition
    intro p ss ms heq hfl
    unfold calculate
    rw [heq]
    by_cases hall : (h.concealed ++ h.melds.flatMap (fun m => m.tiles)).all
        (fun t => t.isHonour) = true
    · simp [hall]
    · simp only [Bool.not_eq_true] at hall
      by_cases h9 : nineGatesCond h
          (h.concealed ++ h.melds.flatMap (fun m => m.tiles)) = true
      · simp [hall, h9]
      · simp only [Bool.not_eq_true] at h9
        simp only [hall, Bool.false_eq_true, if_false, h9]
        have hmem : (RuleName.eightBonus, maxFan) ∈ standardBreakdown h ctx p ss := by
          unfold standardBreakdown checkFlowersEntries
          simp [hfl]
        have hle := le_sumFan_of_mem _ _ _ hmem
        simp [Nat.min_eq_right hle]

/-- C4: for every completed round (winner and any stored feeder
indices among the four seats), the four payment deltas sum to zero,
and a drawn round (winner < 0) produces exactly `[0, 0, 0, 0]`. -/
theorem C4_payment_zero_sum (g : Game) (pi : PaymentInfo)
    (hw : g.winner < 4)
    (hfp : ∀ info, g.winInfo = some info →
      ∀ fp, info.fromPlayer = some fp → 0 ≤ fp ∧ fp < 4)
    (hmf : ∀ hd ∈ g.hands, ∀ m ∈ hd.melds,
      ∀ f, m.fromPlayer = some f → 0 ≤ f ∧ f < 4)
    (hp : calculatePayment g = some pi) :
    pi.deltas.sum = 0 ∧ (g.winner < 0 → pi.deltas = [0, 0, 0, 0]) := by
  unfold calculatePayment at hp
  split_ifs at hp with hneg
  · cases hp
    exact ⟨by decide, fun _ => rfl⟩
  · refine ?_
    have hw0 : 0 ≤ g.winner := by omega
    have hwn : g.winner.toNat < 4 := by omega
    cases hinfo : g.winInfo with
    | none => rw [hinfo] at hp; cases hp
    | some info =>
      rw [hinfo] at hp
      dsimp only at hp
      by_cases hsd : info.selfDrawn = true
      · rw [if_pos hsd] at hp
        cases hwh : g.hands.get? g.winner.toNat with
        | none => rw [hwh] at hp; cases hp
        | some whand =>
          rw [hwh] at hp
          dsimp only at hp
          split_ifs at hp with hresp
          · -- bao branch
            cases hp
            rcases checkBaoPai_cases whand g.winner with hno | ⟨m, hm, hf⟩
            · rw [hno] at hresp; omega
            · obtain ⟨hf0, hf4⟩ := hmf whand (List.get?_mem hwh) m hm _ hf
              constructor
              · rw [addAtI_sum _ _ _ hw0
                  (by rw [addAtI_length]; simpa using hwn)]
                rw [addAtI_sum _ _ _ hf0 (by simpa using (by omega : (checkBaoPai whand g.winner).toNat < 4))]
                simp
              · intro hlt; omega
          · -- normal self-drawn split
            cases hp
            constructor
            · have := (payFold g.winner
                (selfDrawnPay ((fanToPoints info.scoring.totalFan : Nat) : Int)
                  (g.winner == (g.dealerIndex : Int)) g.dealerIndex)
                (List.range 4) [0, 0, 0, 0] rfl hw0 hwn
                (fun i hi => List.mem_range.mp hi)).1
              rw [this]; rfl
            · intro hlt; omega
      · rw [if_neg hsd] at hp
        cases hfrom : info.fromPlayer with
        | none => rw [hfrom] at hp; cases hp
        | some fp =>
          rw [hfrom] at hp
          dsimp only at hp
          cases hp
          obtain ⟨hf0, hf4⟩ := hfp info hinfo fp hfrom
          constructor
          · rw [addAtI_sum _ _ _ hw0 (by rw [addAtI_length]; simpa using hwn)]
            rw [addAtI_sum _ _ _ hf0 (by simpa using (by omega : fp.toNat < 4))]
            simp
          · intro hlt; omega

/-- C5: on a self-drawn win whose hand has at least three dragon
melds, the last of them fed by another (in-range) player, that feeder
alone pays: their delta is minus three times the base points, the
winner's delta is plus three times the base points, and the other two
deltas are zero. -/
theorem C5_bao_three_dragons (g : Game) (info : WinInfo) (whand : Hand) (f : Int)
    (hwin0 : 0 ≤ g.winner) (hwin4 : g.winner < 4)
    (hinfo : g.winInfo = some info) (hsd : info.selfDrawn = true)
    (hwh : g.hands.get? g.winner.toNat = some whand)
    (hd3 : 3 ≤ (dragonMeldsOf whand.melds).length)
    (hlast : ∃ lm, (dragonMeldsOf whand.melds).getLast? = some lm
      ∧ lm.fromPlayer = some f)
    (hfw : f ≠ g.winner) (hf0 : 0 ≤ f) (hf4 : f < 4) :
    ∃ pi, calculatePayment g = some pi
      ∧ pi.responsible = f
      ∧ pi.deltas.get? f.toNat
        = some (-(((fanToPoints info.scoring.totalFan : Nat) : Int) * 3))
      ∧ pi.deltas.get? g.winner.toNat
        = some (((fanToPoints info.scoring.totalFan : Nat) : Int) * 3)
      ∧ ∀ j : Nat, j < 4 → (j : Int) ≠ f → (j : Int) ≠ g.winner →
          pi.deltas.get? j = some 0 := by
  obtain ⟨lm, hl, hfp⟩ := hlast
  have hbao : checkBaoPai whand g.winner = f := by
    have hdr : baoDragon whand.melds g.winner = some f := by
      unfold baoDragon
      dsimp only
      rw [if_pos hd3]
      unfold lastFeeder
      rw [hl]
      dsimp only
      rw [hfp]
      dsimp only
      rw [if_pos hfw]
    unfold checkBaoPai
    rw [if_neg (by
      intro hz
      have hle : (dragonMeldsOf whand.melds).length ≤ whand.melds.length := by
        unfold dragonMeldsOf
        exact List.length_filter_le _ _
      omega)]
    rw [hdr]
    rfl
  unfold calculatePayment
  rw [if_neg (by omega), hinfo]
  dsimp only
  rw [if_pos hsd, hwh]
  dsimp only
  rw [hbao, if_pos hf0]
  refine ⟨_, rfl, rfl, ?_, ?_, ?_⟩
  · rw [addAtI_get?_ne _ _ _ _ (by omega)]
    rw [addAtI_get?_self _ _ _ hf0]
    have : ([(0 : Int), 0, 0, 0].get? f.toNat) = some 0 := by
      have h4 : f.toNat < 4 := by omega
      interval_cases hft : f.toNat <;> rfl
    rw [this]
    simp
  · rw [addAtI_get?_self _ _ _ hwin0]
    rw [addAtI_get?_ne _ _ _ _ (by omega)]
    have : ([(0 : Int), 0, 0, 0].get? g.winner.toNat) = some 0 := by
      have h4 : g.winner.toNat < 4 := by omega
      interval_cases hwt : g.winner.toNat <;> rfl
    rw [this]
    simp
  · intro j hj4 hjf hjw
    rw [addAtI_get?_ne _ _ _ _ (by omega), addAtI_get?_ne _ _ _ _ (by omega)]
    interval_cases j <;> rfl

/-- Witness for C5: player 3 fed the third dragon pung of the
self-drawn winner (player 1, 8 fan, base 256): player 3 pays 768,
player 1 collects 768, the rest pay nothing. -/
theorem C5_witness :
    ∃ pi, calculatePayment gameC5 = some pi ∧ pi.responsible = 3
      ∧ pi.deltas.get? 3 = some (-768) ∧ pi.deltas.get? 1 = some 768
      ∧ pi.deltas.get? 0 = some 0 ∧ pi.deltas.get? 2 = some 0 := by
  obtain ⟨pi, hp, hr, hf, hw, ho⟩ := C5_bao_three_dragons gameC5
    ⟨⟨8, []⟩, true, none⟩ handC5 3 (by decide) (by decide) rfl rfl (by decide)
    (by decide)
    ⟨{ type := MeldType.pung,
       tiles := [⟨Suit.dragon, 3, 132⟩, ⟨Suit.dragon, 3, 133⟩, ⟨Suit.dragon, 3, 134⟩],
       fromPlayer := some 3 }, by decide, rfl⟩
    (by decide) (by decide) (by decide)
  refine ⟨pi, hp, hr, ?_, ?_, ho 0 (by decide) (by decide) (by decide),
    ho 2 (by decide) (by decide) (by decide)⟩
  · have he : (-(((fanToPoints (8 : Nat) : Nat) : Int) * 3)) = -768 := by
      norm_num [fanToPoints]
    rw [he] at hf
    exact hf
  · have he : (((fanToPoints (8 : Nat) : Nat) : Int) * 3) = 768 := by
      norm_num [fanToPoints]
    rw [he] at hw
    exact hw

/-- Witness for C4: a drawn round pays nothing. -/
theorem C4_witness :
    ∃ pi, calculatePayment fixtureGame = some pi ∧ pi.deltas.sum = 0
      ∧ pi.deltas = [0, 0, 0, 0] := by
  have hp : calculatePayment fixtureGame = some ⟨[0, 0, 0, 0], -1⟩ := by decide
  have h := C4_payment_zero_sum fixtureGame ⟨[0, 0, 0, 0], -1⟩ (by decide)
    (fun info hinfo => by rw [show fixtureGame.winInfo = none from rfl] at hinfo; cases hinfo)
    (fun hd hmem m hm f hf => by
      have hnil : hd.melds = [] := by
        have : hd ∈ [Hand.mkEmpty 0, Hand.mkEmpty 1, Hand.mkEmpty 2, Hand.mkEmpty 3] := hmem
        simp only [List.mem_cons, List.not_mem_nil, or_false] at this
        rcases this with h1 | h1 | h1 | h1 <;> rw [h1] <;> rfl
      rw [hnil] at hm; cases hm)
    hp
  exact ⟨⟨[0, 0, 0, 0], -1⟩, hp, h.1, h.2 (by decide)⟩

/-- Witness for C3: the cap instantiated at a concrete winning hand
(it scores 11 ≤ 13). -/
theorem C3_witness :
    handC2.canWin = true ∧ (calculate handC2 ctxC10).totalFan ≤ maxFan :=
  ⟨by decide, (C3_fan_bounds handC2 ctxC10).1⟩

/-- Counterexample for C3 as stated: a winning seven-pairs hand
holding all 8 bonus tiles scores 4, not 13 (bonus tiles are only
scored in the standard branch). -/
theorem C3_counterexample :
    handC3.canWin = true ∧ handC3.flowers.length = 8
    ∧ (calculate handC3 ctxC3).totalFan = 4
    ∧ (calculate handC3 ctxC3).totalFan ≠ 13 := by
  refine ⟨by decide, by decide, by decide, by decide⟩

/-- Witness for C10: the fixture is also standard-decomposable, yet
it is scored through the seven-pairs branch: 4 (seven pairs) + 7
(clean flush) = 11 fan. -/
theorem C10_witness :
    handC10.getWinDecomposition = some (Decomp.sevenPairs handC10.concealed)
    ∧ (calculate handC10 ctxC10).totalFan = 11 := by
  have ht := C10_seven_pairs_priority handC10 ctxC10 (by decide) (by decide) (by decide)
  refine ⟨ht.1, ?_⟩
  rw [ht.2.2]
  decide

/-- Witness for C7: dice 1+2+4 = 7 on an unshuffled wall gives dealer
index 2. -/
theorem C7_witness :
    ∃ g2, confirmDice { fixtureGame with diceResults := [1, 2, 4] } createAllTiles = some g2
      ∧ g2.dealerIndex = 2 := by
  have hs : (confirmDice { fixtureGame with diceResults := [1, 2, 4] }
      createAllTiles).isSome = true := by decide
  obtain ⟨g2, hg2⟩ := Option.isSome_iff_exists.mp hs
  exact ⟨g2, hg2,
    (C7_confirmDice_dealer _ createAllTiles 1 2 4 g2 rfl
      (by decide) (by decide) (by decide) hg2).2.1 (by decide)⟩

/-- Witness for C8: in the menu state both operations are rejected
no-ops. -/
theorem C8_witness :
    playerDiscard fixtureGame ⟨Suit.wan, 1, 0⟩ = some (false, fixtureGame)
    ∧ playerDraw fixtureGame = some (false, fixtureGame) :=
  ⟨(C8_state_guards fixtureGame ⟨Suit.wan, 1, 0⟩).1 (by decide),
   (C8_state_guards fixtureGame ⟨Suit.wan, 1, 0⟩).2 (by decide)⟩


/-- C6: Corrected. `playerKong` never falls back to the live wall when
the dead wall is empty: the wall is returned unchanged (no tile is
drawn from anywhere), the kong-declaring player receives no
replacement, and `_validateHandSize` then pops two concealed tiles
into the player's own discard pile. For a concealed kong from a
14-tile hand the player ends with 8 concealed tiles (not 11), and for
an added kong from a hand with `concealed ≡ 2 (mod 3)` the player
ends three tiles down with two extra discards. -/
theorem C6_kong_no_fallback (g : Game) (h : Hand) (k : Key)
    (hget : g.hands.get? 0 = some h) (hdead : g.wall.deadWall = [])
    (hmod : h.concealed.length % 3 = 2) :
    (h.countByKey k = 4 → 8 ≤ h.concealed.length →
      ∃ g3, playerKong g KongType.kong_concealed k = some g3
        ∧ g3.wall = g.wall
        ∧ (g3.hands.get? 0).map
            (fun h2 => (h2.concealed.length, h2.discards.length, h2.melds.length))
          = some (h.concealed.length - 6, h.discards.length + 2,
              h.melds.length + 1)
        ∧ g3.state = GameState.player_discard)
    ∧ (∀ i, findPungIdx k h.melds = some i → 0 < h.countByKey k →
        5 ≤ h.concealed.length →
      ∃ g3, playerKong g KongType.kong_added k = some g3
        ∧ g3.wall = g.wall
        ∧ (g3.hands.get? 0).map
            (fun h2 => (h2.concealed.length, h2.discards.length, h2.melds.length))
          = some (h.concealed.length - 3, h.discards.length + 2, h.melds.length)
        ∧ g3.state = GameState.player_discard)
    := by
  have hlen0 : 0 < g.hands.length := by
    rcases List.get?_eq_some.mp hget with ⟨hlt, _⟩
    omega
  constructor
  · intro hc hlen
    obtain ⟨l1, m1, d1, f1⟩ := doKongConcealed_spec h k hc
    have hget2 : (g.hands.set 0 (h.doKongConcealed k)).get? 0
        = some (h.doKongConcealed k) := get?_set_self _ _ _ hlen0
    have hmod2 : (h.doKongConcealed k).concealed.length % 3 = 1 := by omega
    have hge2 : 3 ≤ (h.doKongConcealed k).concealed.length := by omega
    obtain ⟨p1, p2, p3, p4⟩ :=
      popExcessN_two (h.doKongConcealed k) (by omega)
    unfold playerKong
    rw [hget]
    dsimp only
    rw [drawDead_empty g.wall hdead]
    dsimp only
    unfold validateHandSize
    dsimp only
    rw [validatePlayer_pop g.wall _ 0 _ hget2 hmod2 hge2]
    dsimp only [Option.map]
    refine ⟨_, rfl, rfl, ?_, rfl⟩
    dsimp only
    rw [List.set_set, get?_set_self _ _ _ hlen0]
    dsimp only [Option.map]
    have e2 := congrArg List.length d1
    have e3 := congrArg List.length p3
    simp only [List.length_cons] at e2 e3
    refine congrArg some ?_
    simp only [Prod.mk.injEq]
    refine ⟨by omega, by omega, by omega⟩
  · intro i hfind hcnt hlen
    obtain ⟨l1, m1, d1, f1⟩ := doKongAdded_spec h k i hfind hcnt
    have hget2 : (g.hands.set 0 (h.doKongAdded k)).get? 0
        = some (h.doKongAdded k) := get?_set_self _ _ _ hlen0
    have hmod2 : (h.doKongAdded k).concealed.length % 3 = 1 := by omega
    have hge2 : 3 ≤ (h.doKongAdded k).concealed.length := by omega
    obtain ⟨p1, p2, p3, p4⟩ := popExcessN_two (h.doKongAdded k) (by omega)
    unfold playerKong
    rw [hget]
    dsimp only
    rw [drawDead_empty g.wall hdead]
    dsimp only
    unfold validateHandSize
    dsimp only
    rw [validatePlayer_pop g.wall _ 0 _ hget2 hmod2 hge2]
    dsimp only [Option.map]
    refine ⟨_, rfl, rfl, ?_, rfl⟩
    dsimp only
    rw [List.set_set, get?_set_self _ _ _ hlen0]
    dsimp only [Option.map]
    have e2 := congrArg List.length d1
    have e3 := congrArg List.length p3
    simp only [List.length_cons] at e2 e3
    refine congrArg some ?_
    simp only [Prod.mk.injEq]
    refine ⟨by omega, by omega, by omega⟩

/-- C6 counterexample to the original claim: declaring a concealed
kong of circle-1 in `gameC6` (dead wall empty, three live tiles)
leaves the live wall untouched — `remaining` stays 3 and `drawIndex`
stays 0, so no fallback draw happens — and the player ends with 8
concealed tiles instead of 11, with two tiles moved to the discard
pile. -/
theorem C6_counterexample :
    (playerKong gameC6 KongType.kong_concealed ⟨Suit.tung, 1⟩).map
        (fun g3 => (g3.wall.remaining, g3.wall.drawIndex,
          g3.wall.deadWall.length,
          (g3.hands.getD 0 (Hand.mkEmpty 0)).concealed.length,
          (g3.hands.getD 0 (Hand.mkEmpty 0)).discards.length))
      = some (3, 0, 0, 8, 2) := by decide

/-- C6 witness: the corrected theorem applied to `gameC6`. -/
theorem C6_witness :
    ∃ g3, playerKong gameC6 KongType.kong_concealed ⟨Suit.tung, 1⟩ = some g3
      ∧ g3.wall = gameC6.wall
      ∧ (g3.hands.get? 0).map
          (fun h2 => (h2.concealed.length, h2.discards.length, h2.melds.length))
        = some (8, 2, 1)
      ∧ g3.state = GameState.player_discard :=
  (C6_kong_no_fallback gameC6 handC6 ⟨Suit.tung, 1⟩ rfl rfl (by decide)).1
    (by decide) (by decide)


/-- C9: `deal(dealerIndex)` deals by the traditional round-robin:
three passes of 4 tiles to each player starting at the dealer, then
one tile each, then one extra tile for the dealer. Seat
`(dealerIndex + p) % 4` receives exactly the wall tiles at offsets
`16r + 4p + t` (r < 3, t < 4) and `48 + p`, plus offset 52 when
`p = 0` (the dealer), so the dealer holds 14 tiles and the other three
players 13. -/
theorem C9_deal_round_robin (w : Wall) (d p : Nat) (hd : d < 4) (hp : p < 4)
    (hidx : w.drawIndex = 0) (hlen : 53 ≤ w.tiles.length) :
    ((w.deal d).1).get? ((d + p) % 4)
      = some ((dealPositions p ++ if p = 0 then [52] else []).map
          (fun o => w.tiles.get? o))
    ∧ ((w.deal d).1.getD ((d + p) % 4) []).length = if p = 0 then 14 else 13 := by
  have hsched : (dealSchedule d).length = 53 := by
    interval_cases d <;> rfl
  have hq4 : (d + p) % 4 < 4 := Nat.mod_lt _ (by omega)
  have hmain := dealFold_get? (dealSchedule d) [[], [], [], []] w ((d + p) % 4)
    (by rw [hsched]; omega) (by simpa using hq4)
  rw [posOf_dealSchedule d p hd hp, hidx] at hmain
  simp only [Nat.zero_add] at hmain
  have hget0 : ([[], [], [], []] : List (List (Option Tile))).getD ((d + p) % 4) []
      = [] := by
    interval_cases h : (d + p) % 4 <;> rfl
  rw [hget0, List.nil_append] at hmain
  have h1 : ((w.deal d).1).get? ((d + p) % 4)
      = some ((dealPositions p ++ if p = 0 then [52] else []).map
          (fun o => w.tiles.get? o)) := by
    unfold Wall.deal
    exact hmain
  refine ⟨h1, ?_⟩
  rw [List.getD_eq_get?, h1, Option.getD_some, List.length_map,
    List.length_append]
  have h13 : (dealPositions p).length = 13 := by
    interval_cases p <;> rfl
  by_cases hp0 : p = 0
  · rw [if_pos hp0, if_pos hp0, h13]
    rfl
  · rw [if_neg hp0, if_neg hp0, h13]
    rfl

/-- C9 witness: the fresh full wall (no shuffle), dealer seat 2,
receiving player offset 1 (seat 3). -/
theorem C9_witness :
    ((Wall.buildWith createAllTiles).deal 2).1.get? 3
      = some ((dealPositions 1 ++ if (1 : Nat) = 0 then [52] else []).map
          (fun o => (Wall.buildWith createAllTiles).tiles.get? o))
    ∧ (((Wall.buildWith createAllTiles).deal 2).1.getD 3 []).length
      = if (1 : Nat) = 0 then 14 else 13 :=
  C9_deal_round_robin (Wall.buildWith createAllTiles) 2 1 (by decide) (by decide)
    rfl (by decide)


/-- C1: Refuted — the tile count is not conserved. In the concrete
claiming state `gC1` all 144 tiles are accounted for, player 0's hand
genuinely wins on the discarded circle-5, yet `playerClaim('win')`
adds the claimed tile to the winner's hand without removing it from
the discarder's discard pile (unlike the AI claim path, which splices
it out first), so the global count becomes 145. -/
theorem C1_total_tiles_not_conserved :
    totalTiles gC1 = 144
    ∧ gC1.state = GameState.claiming
    ∧ (handC1p0.addTile ⟨Suit.tung, 5, 53⟩).canWin = true
    ∧ (playerClaim gC1 ClaimAction.win none).map totalTiles = some 145
    ∧ (playerClaim gC1 ClaimAction.win none).map
        (fun g2 => (g2.hands.getD 1 (Hand.mkEmpty 1)).discards.length)
      = some 1 := by decide

end HKMJ
